import Mathlib

/-!
# Verification of the mercury-orm field/record layer

A shallow embedding of the mercury-orm data-mapping library
(`mercuryorm/base.py`, `mercuryorm/fields.py`, `mercuryorm/file.py`,
`mercuryfieldservice/record_manager.py`) together with proofs about the
field-descriptor validation logic, wire-payload construction, the
save/delete request paths, and the attachment subsystem.

Python runtime values (JSON values, field slots, attachment objects) are
embedded as the inductive type `Value`; instance `__dict__`s and JSON
objects are association lists with Python-dict semantics (update in
place, insertion order preserved); code that can raise returns `Except`.
-/

namespace MercuryORM

/-- Embedding of the Python runtime values the library manipulates:
`None`, booleans, ints, floats (only integer-valued floats arise in the
verified properties, so the payload is an `Int`), strings, `bytes`
buffers, lists, dicts (JSON objects / keyword maps) and `AttachmentFile`
objects.  An `AttachmentFile` (file.py) carries `_attachment_id`,
`_attachment_url`, `_attachment_size`, `_attachment_filename`,
`_content`, the `saved` flag and the optional `token` attribute (absent
until `save` sets it, hence `Option`). -/
inductive Value where
  | none
  | bool (b : Bool)
  | int (n : Int)
  | float (n : Int)
  | str (s : String)
  | bytes (bs : List Nat)
  | list (xs : List Value)
  | dict (kvs : List (String × Value))
  | file (fid furl fsize fname fcontent : Value) (saved : Bool) (token : Option Value)

/-- Python `x is None`. -/
def Value.isNone : Value → Bool
  | .none => true
  | _ => false

/-- Python `x == s` against a string literal (`==` between a string and a
non-string is `False`). -/
def Value.eqStr (v : Value) (s : String) : Bool :=
  match v with
  | .str t => t = s
  | _ => false

/-- Python `x == n` against an int literal (`True == 1`, `201.0 == 201`,
and `==` against non-numeric values is `False`). -/
def Value.eqInt (v : Value) (n : Int) : Bool :=
  match v with
  | .int m => m = n
  | .bool b => (if b then (1 : Int) else 0) = n
  | .float m => m = n
  | _ => false

/-- Python truthiness (`bool(x)`).  For `AttachmentFile`,
`__bool__` returns `bool(self.id or self.content)` (file.py). -/
def Value.truthy : Value → Bool
  | .none => false
  | .bool b => b
  | .int n => n != 0
  | .float n => n != 0
  | .str s => s != ""
  | .bytes bs => !bs.isEmpty
  | .list xs => !xs.isEmpty
  | .dict kvs => !kvs.isEmpty
  | .file fid _ _ _ fcontent _ _ => fid.truthy || fcontent.truthy

/-- Python `str(x)` as used in f-string interpolation of record ids. -/
def Value.pyStr : Value → String
  | .none => "None"
  | .bool b => if b then "True" else "False"
  | .int n => toString n
  | .float n => toString n ++ ".0"
  | .str s => s
  | .bytes _ => "<bytes>"
  | .list _ => "<list>"
  | .dict _ => "<dict>"
  | .file .. => "<AttachmentFile>"

/-- Model of `d.get(k)` on a Python dict embedded as an association list
(keys are unique when the list is built by `dictSet`). -/
def dictGet? : List (String × Value) → String → Option Value
  | [], _ => Option.none
  | (k, v) :: rest, key => if k = key then some v else dictGet? rest key

/-- Model of `d[k] = v` on a Python dict: update in place if the key exists
(keeping its position), otherwise append, as Python dicts preserve
insertion order. -/
def dictSet : List (String × Value) → String → Value → List (String × Value)
  | [], key, v => [(key, v)]
  | (k, w) :: rest, key, v =>
      if k = key then (k, v) :: rest else (k, w) :: dictSet rest key v

/-- Model of `d.get(k, default)`. -/
def dictGetD (d : List (String × Value)) (k : String) (dflt : Value) : Value :=
  (dictGet? d k).getD dflt

/-- Model of `{**a, **b}`: start from `a` and write every entry of `b` in order. -/
def dictMerge (a b : List (String × Value)) : List (String × Value) :=
  b.foldl (fun acc kv => dictSet acc kv.1 kv.2) a

/-- Model of `resp.get(k, default)` on a JSON response (responses are dicts). -/
def vgetD (v : Value) (k : String) (dflt : Value) : Value :=
  match v with
  | .dict kvs => dictGetD kvs k dflt
  | _ => dflt

/-! ## Errors (mercuryorm/exceptions.py, plus built-in Python exceptions)

The exception classes are declared in `mercuryorm/exceptions.py`; the
embedding only needs their identity (and the payload the claims talk
about), so each is one constructor.  Built-in exceptions the embedded
code can raise (`KeyError`, `IndexError`, `ValueError`, `TypeError`,
`AttributeError`, `re.error`) get constructors as well. -/
inductive PyErr where
  | fieldTypeError (field : String)
  | invalidChoice (field : String) (value : Value)
  | invalidDateFormat (field : String)
  | invalidRegex (field : String) (value : String)
  | regexCompileError (field : String)
  | uniqueConstraintError (nameV : Value)
  | createRecordError
  | updateRecordError
  | deleteRecordError
  | valueError (msg : String)
  | keyError (k : String)
  | indexError
  | attributeError (a : String)
  | typeError (msg : String)
  | reError (pat : String)

/-- Model of `resp[k]`: `KeyError` when absent. -/
def vIndex (v : Value) (k : String) : Except PyErr Value :=
  match v with
  | .dict kvs =>
      match dictGet? kvs k with
      | some x => .ok x
      | Option.none => .error (.keyError k)
  | _ => .error (.typeError "not subscriptable")

/-- A single entry of a `choices` list: either a bare string or a
`(key, label)` tuple. -/
inductive Choice where
  | bare (s : String)
  | pair (key label : String)
deriving DecidableEq, Repr

/-- Models the `unidecode` transliteration used on bare choices.  It is
the identity on ASCII; accented Latin letters occurring in Portuguese
labels fold to their base letter.  (The library `unidecode` is an
external collaborator; no verified property depends on the folding of
characters outside this table.) -/
def unidecodeChar (c : Char) : Char :=
  if c = 'á' ∨ c = 'à' ∨ c = 'â' ∨ c = 'ã' then 'a'
  else if c = 'é' ∨ c = 'ê' then 'e'
  else if c = 'í' then 'i'
  else if c = 'ó' ∨ c = 'ô' ∨ c = 'õ' then 'o'
  else if c = 'ú' then 'u'
  else if c = 'ç' then 'c'
  else c

/-- Python `str.lower()` (basic-latin case folding, as used on ASCII
class names and choice strings). -/
def pyLower (s : String) : String := ⟨s.data.map Char.toLower⟩

/-- Model of `unidecode(choice).lower().replace(" ", "_")` (fields.py lines
444-446 and 575-577). -/
def normalizeChoice (s : String) : String :=
  (pyLower ⟨s.data.map unidecodeChar⟩).replace " " "_"

/-- Shared configuration of `DropdownField` and `MultiselectField`
(fields.py lines 428-446 and 559-577 set up identical attributes):
the field name, the raw `choices`, the optional `to_representation`
key-to-label dict and the derived `possible_keys`. -/
structure ChoiceFieldData where
  name : String
  choices : List Choice
  to_representation : Option (List (String × String))
  possible_keys : List String
deriving DecidableEq, Repr

/-- Model of `dict(choices)`: build a Python dict from key-label pairs
(later pairs overwrite earlier ones). -/
def strDictOfPairs (ps : List (String × String)) : List (String × String) :=
  ps.foldl
    (fun acc kv =>
      if acc.any (fun p => p.1 = kv.1)
      then acc.map (fun p => if p.1 = kv.1 then (p.1, kv.2) else p)
      else acc ++ [kv]) []

/-- Model of `d[k]` on a string dict. -/
def strDictGet? (d : List (String × String)) (k : String) : Option String :=
  (d.find? (fun p => p.1 = k)).map Prod.snd

def Choice.pairOf? : Choice → Option (String × String)
  | .pair k l => some (k, l)
  | .bare _ => Option.none

def Choice.bareOf? : Choice → Option String
  | .bare s => some s
  | .pair _ _ => Option.none

/-- Model of `DropdownField.__init__` / `MultiselectField.__init__` (fields.py
lines 428-446, 559-577): if the choices list is non-empty and its first
element is a tuple, `to_representation = dict(choices)` and
`possible_keys` collects the keys; otherwise every bare choice is
normalized.  A mixed list would raise inside `dict(...)`/tuple
unpacking/`unidecode(...)` in Python, hence `Option.none`. -/
def choiceFieldInit (name : String) (choices : List Choice) : Option ChoiceFieldData :=
  match choices with
  | .pair _ _ :: _ => do
      let pairs ← choices.mapM Choice.pairOf?
      some ⟨name, choices, some (strDictOfPairs pairs), pairs.map Prod.fst⟩
  | _ => do
      let bares ← choices.mapM Choice.bareOf?
      some ⟨name, choices, Option.none, bares.map normalizeChoice⟩

/-- Model of `DropdownField.validate` (fields.py lines 451-470): `None` passes,
a non-string raises `FieldTypeError`, and a string outside
`possible_keys` raises `InvalidChoiceError` — but only when
`possible_keys` is truthy (non-empty). -/
def dropdownValidate (f : ChoiceFieldData) (v : Value) : Except PyErr Bool :=
  match v with
  | .none => .ok true
  | .str s =>
      if !f.possible_keys.isEmpty && !f.possible_keys.contains s
      then .error (.invalidChoice f.name (.str s))
      else .ok true
  | _ => .error (.fieldTypeError f.name)

/-- Membership test `item in self.possible_keys` for an arbitrary
`Value` item (a non-string is never a member of a list of strings). -/
def keyMember (keys : List String) : Value → Bool
  | .str s => keys.contains s
  | _ => false

/-- Model of `MultiselectField.validate` (fields.py lines 579-599): `None`
passes, a non-list raises `FieldTypeError`, and each element outside
`possible_keys` raises `InvalidChoiceError` — again only when
`possible_keys` is non-empty. -/
def multiselectValidate (f : ChoiceFieldData) (v : Value) : Except PyErr Bool :=
  match v with
  | .none => .ok true
  | .list xs =>
      match xs.find? (fun it => !f.possible_keys.isEmpty && !keyMember f.possible_keys it) with
      | some it => .error (.invalidChoice f.name it)
      | Option.none => .ok true
  | _ => .error (.fieldTypeError f.name)

/-- Model of `DropdownField.get_to_representation` (fields.py lines 472-479)
applied to the stored value: `None` stays `None`; with a truthy
`to_representation` the label is looked up (`KeyError` when absent),
otherwise the value doubles as its own label. -/
def dropdownGetToRepresentation (f : ChoiceFieldData) (v : Value) : Except PyErr Value :=
  match v with
  | .none => .ok .none
  | v =>
      match f.to_representation with
      | some pairs =>
          if pairs.isEmpty then .ok (.dict [("value", v), ("label", v)])
          else
            match v with
            | .str s =>
                match strDictGet? pairs s with
                | some lab => .ok (.dict [("value", .str s), ("label", .str lab)])
                | Option.none => .error (.keyError s)
            | _ => .error (.keyError v.pyStr)
      | Option.none => .ok (.dict [("value", v), ("label", v)])

/-- One element of `MultiselectField.get_to_representation`'s output
list. -/
def multiselectRepItem (f : ChoiceFieldData) (it : Value) : Except PyErr Value :=
  match f.to_representation with
  | some pairs =>
      if pairs.isEmpty then .ok (.dict [("value", it), ("label", it)])
      else
        match it with
        | .str s =>
            match strDictGet? pairs s with
            | some lab => .ok (.dict [("value", .str s), ("label", .str lab)])
            | Option.none => .error (.keyError s)
        | _ => .error (.keyError it.pyStr)
  | Option.none => .ok (.dict [("value", it), ("label", it)])

/-- Model of `MultiselectField.get_to_representation` (fields.py lines 601-610):
`None` stays `None`, otherwise each selected item becomes a
`{value, label}` pair.  A stored non-list cannot arise through the
descriptor (which validates every assignment), so it is mapped to a
`TypeError`. -/
def multiselectGetToRepresentation (f : ChoiceFieldData) (v : Value) : Except PyErr Value :=
  match v with
  | .none => .ok .none
  | .list xs => do
      let items ← xs.mapM (multiselectRepItem f)
      .ok (.list items)
  | _ => .error (.typeError "not iterable")

/-- Group balance scan for `reCompile`. -/
def parenBalance : List Char → Int → Option Int
  | [], d => some d
  | c :: rest, d =>
      if c = '(' then parenBalance rest (d + 1)
      else if c = ')' then
        if d = 0 then Option.none else parenBalance rest (d - 1)
      else parenBalance rest d

/-- Model of `re.compile(pattern)`: returns the compiled pattern or
raises `re.error`. -/
def reCompile (pat : String) : Except PyErr String :=
  match parenBalance pat.data 0 with
  | some 0 => .ok pat
  | _ => .error (.reError pat)

/-- Model of `bool(re.match(pattern, value))` for metacharacter-free
patterns. -/
def reMatchB (pat value : String) : Bool :=
  pat.isPrefixOf value

/-- Model of `RegexpField._check_pattern` (fields.py lines 386-387):
`bool(re.compile(pattern))` — when compilation succeeds the result is a
pattern object, which is always truthy, so this either returns `True`
or lets `re.error` propagate. -/
def checkPattern (pat : String) : Except PyErr Bool :=
  match reCompile pat with
  | .error e => .error e
  | .ok _ => .ok true

/-- Model of `NameField` configuration (fields.py lines 150-175). -/
structure NameCfg where
  unique : Bool
  autoincrement_enabled : Bool
  autoincrement_pfx : String
  autoincrement_padding : Nat
  autoincrement_next_sequence : Nat
deriving DecidableEq, Repr

/-- Tag for a `LookupField`'s related type, used by the base
`isinstance(value, self.data_type)` check. -/
inductive VTag where
  | tstr | tint | tbool | tlist | tdict | tfile
deriving DecidableEq, Repr

/-- A declared field, one constructor per field class of fields.py.
`attachment` records `field_name`, `ticket_field_name` and the class
attribute name under which the field was declared (from which
`contribute_to_class` derives the companion slot names). -/
inductive FieldDef where
  | nameF (cfg : NameCfg)
  | text (name : String)
  | textarea (name : String)
  | checkbox (name : String)
  | date (name : String)
  | integer (name : String)
  | decimal (name : String)
  | regexp (name pat : String)
  | dropdown (f : ChoiceFieldData)
  | multiselect (f : ChoiceFieldData)
  | lookup (name : String) (rel : VTag)
  | attachment (field_name ticket_field_name attrName : String)
deriving DecidableEq, Repr

/-- Model of `RegexpField.__init__` (fields.py lines 373-384): compile-check the
pattern (`re.error` propagates), raise `RegexCompileError` if the check
returned a falsy result, else store the pattern. -/
def regexpFieldInit (name pat : String) : Except PyErr FieldDef :=
  match checkPattern pat with
  | .error e => .error e
  | .ok ok? =>
      if !ok? then .error (.regexCompileError name)
      else .ok (.regexp name pat)

/-- The `name` attribute of a field: the instance `__dict__` key the
descriptor reads and writes (`Field.__get__`/`__set__`). -/
def FieldDef.storageName : FieldDef → String
  | .nameF _ => "name"
  | .text n | .textarea n | .checkbox n | .date n | .integer n | .decimal n => n
  | .regexp n _ => n
  | .dropdown f | .multiselect f => f.name
  | .lookup n _ => n
  | .attachment _ _ a => a

def FieldDef.isAttachment : FieldDef → Bool
  | .attachment .. => true
  | _ => false

def FieldDef.isChoice : FieldDef → Bool
  | .dropdown _ | .multiselect _ => true
  | _ => false

/-- Model of `DateField._is_valid_date_format` (fields.py lines 294-296):
`^\d{4}-\d{2}-\d{2}$`. -/
def isValidDateFormat (s : String) : Bool :=
  match s.data with
  | [a, b, c, d, h1, e, f, h2, g, h] =>
      a.isDigit && b.isDigit && c.isDigit && d.isDigit && h1 = '-' &&
      e.isDigit && f.isDigit && h2 = '-' && g.isDigit && h.isDigit
  | _ => false

/-- Python `float(value)`.  Numeric-string parsing is not modelled (no
verified property exercises `float` on a string); non-numeric arguments
raise `TypeError` as in Python. -/
def pyFloat : Value → Except PyErr Value
  | .int n => .ok (.float n)
  | .float n => .ok (.float n)
  | .bool b => .ok (.float (if b then 1 else 0))
  | v => .error (.typeError ("float() argument: " ++ v.pyStr))

/-- Model of `isinstance(value, data_type)` per field data type.  In Python
`bool` is a subclass of `int`, so an `IntegerField` accepts booleans. -/
def isinstStr : Value → Bool | .str _ => true | _ => false

def isinstBool : Value → Bool | .bool _ => true | _ => false

def isinstInt : Value → Bool | .int _ => true | .bool _ => true | _ => false

def isinstFloat : Value → Bool | .float _ => true | _ => false

def isinstList : Value → Bool | .list _ => true | _ => false

def isinstTag (t : VTag) (v : Value) : Bool :=
  match t, v with
  | .tstr, .str _ => true
  | .tint, .int _ => true
  | .tint, .bool _ => true
  | .tbool, .bool _ => true
  | .tlist, .list _ => true
  | .tdict, .dict _ => true
  | .tfile, .file .. => true
  | _, _ => false

/-- Model of `validate` as dispatched by `Field.__set__` for each field class
(the base `Field.validate` returns a `Bool`; the overriding validators
raise their specific errors and return `True`). -/
def fieldValidate : FieldDef → Value → Except PyErr Bool
  | .nameF _, v | .text _, v | .textarea _, v =>
      match v with
      | .none => .ok true
      | v => .ok (isinstStr v)
  | .checkbox _, v =>
      match v with
      | .none => .ok true
      | v => .ok (isinstBool v)
  | .integer _, v =>
      match v with
      | .none => .ok true
      | v => .ok (isinstInt v)
  | .decimal _, v =>
      match v with
      | .none => .ok true
      | v => .ok (isinstFloat v)
  | .date n, v =>
      match v with
      | .none => .ok true
      | .str s =>
          if !isValidDateFormat s then .error (.invalidDateFormat n) else .ok true
      | _ => .error (.fieldTypeError n)
  | .regexp n pat, v =>
      match v with
      | .none => .ok true
      | .str s =>
          if !reMatchB pat s then .error (.invalidRegex n s) else .ok true
      | _ => .error (.fieldTypeError n)
  | .dropdown f, v => dropdownValidate f v
  | .multiselect f, v => multiselectValidate f v
  | .lookup _ rel, v =>
      match v with
      | .none => .ok true
      | v => .ok (isinstTag rel v)
  | .attachment .., _ => .ok true

/-- Model of `str(uuid.uuid4())` returns a fresh random identifier; the model
uses a fixed placeholder, since no verified property depends on the
generated name. -/
def uuid4 : String := "00000000-0000-4000-8000-000000000000"

/-- Python `a or b`. -/
def pyOr (a b : Value) : Value := if a.truthy then a else b

/-- Model of `AttachmentFile.__init__` (file.py lines 58-87): the filename
defaults to a fresh uuid, `saved` starts `False`, becomes `True` when
an `attachment_id` is given, and drops back to `False` when local
`content` is given.  (`save_fast=True` would additionally call `save`;
the verified properties call `save` explicitly, as the tests do.) -/
def attachmentFileInit (attachment_id attachment_url attachment_size attachment_filename content : Value) : Value :=
  let fname := pyOr attachment_filename (.str uuid4)
  let saved0 := false
  let saved1 := if attachment_id.truthy then true else saved0
  let saved2 := if content.truthy then false else saved1
  .file attachment_id attachment_url attachment_size fname content saved2 Option.none

def Value.fileSaved : Value → Bool
  | .file _ _ _ _ _ saved _ => saved
  | _ => false

def Value.fileId : Value → Value
  | .file fid _ _ _ _ _ _ => fid
  | _ => .none

def Value.fileUrl : Value → Value
  | .file _ furl _ _ _ _ _ => furl
  | _ => .none

def Value.fileSize : Value → Value
  | .file _ _ fsize _ _ _ _ => fsize
  | _ => .none

def Value.fileName' : Value → Value
  | .file _ _ _ fname _ _ _ => fname
  | _ => .none

def Value.fileContent : Value → Value
  | .file _ _ _ _ fcontent _ _ => fcontent
  | _ => .none

def Value.fileToken : Value → Option Value
  | .file _ _ _ _ _ _ token => token
  | _ => Option.none

def Value.isFile : Value → Bool
  | .file .. => true
  | _ => false

def isinstBytes : Value → Bool
  | .bytes _ => true
  | _ => false

/-- The subscript chain of `AttachmentFile.save` and
`_upload_attachment` (file.py lines 143-148 and 166-171):
`response["upload"]`, then the attachment's `id`, `file_name`,
`content_url`, `size` and the upload `token`, each raising `KeyError`
when absent. -/
def uploadExtract (resp : Value) : Except PyErr (Value × Value × Value × Value × Value) := do
  let upload ← vIndex resp "upload"
  let att ← vIndex upload "attachment"
  let nid ← vIndex att "id"
  let nfn ← vIndex att "file_name"
  let nurl ← vIndex att "content_url"
  let nsz ← vIndex att "size"
  let ntok ← vIndex upload "token"
  .ok (nid, nfn, nurl, nsz, ntok)

/-- Model of `AttachmentFile.save` (file.py lines 159-172), with the transport's
upload response as a parameter: a no-op when already `saved`; otherwise
the content must be a `bytes` buffer, and on success the remote id,
filename, url, size and upload token are stored and `saved` is set.
The returned `Bool` records whether an upload was performed. -/
def attachmentFileSave (v resp : Value) : Except PyErr (Value × Bool) :=
  match v with
  | .file fid furl fsize fname fcontent saved token =>
      if saved then .ok (.file fid furl fsize fname fcontent saved token, false)
      else if !isinstBytes fcontent then
        .error (.valueError "Content attribute must be of type bytes.")
      else
        match uploadExtract resp with
        | .error e => .error e
        | .ok (nid, nfn, nurl, nsz, ntok) =>
            .ok (.file nid nurl nsz nfn fcontent true (some ntok), true)
  | _ => .error (.typeError "not an AttachmentFile")

/-- The private memo attribute `AttachmentField.contribute_to_class`
derives for a declared attribute (`__{name}_file`).  The hook that
invokes `contribute_to_class` at class-definition time is not under
src/ (only the method definitions are); per spec §4.1 the Attachment
field derives its companion slot names on class attachment. -/
def cacheKey (attr : String) : String := "__" ++ attr ++ "_file"

/-- Model of `AttachmentField.__set__` (fields.py lines 680-691): `None` is
ignored, an `AttachmentFile` is memoized and fanned out into the four
companion slots, anything else raises `ValueError`.  The companion
slots are plain instance attributes (none of the verified classes
declares a descriptor under a companion name). -/
def attachmentSet (attr : String) (inst : List (String × Value)) (v : Value) :
    Except PyErr (List (String × Value)) :=
  match v with
  | .none => .ok inst
  | .file .. =>
      let i1 := dictSet inst (cacheKey attr) v
      let i2 := dictSet i1 (attr ++ "_id") v.fileId
      let i3 := dictSet i2 (attr ++ "_url") v.fileUrl
      let i4 := dictSet i3 (attr ++ "_filename") v.fileName'
      let i5 := dictSet i4 (attr ++ "_size") v.fileSize
      .ok i5
  | _ => .error (.valueError "AttachmentField only accepts AttachmentFile instances.")

/-- Model of `AttachmentField.__get__` (fields.py lines 655-678): return the
memoized file if present; otherwise read the four companion slots,
return `None` for a falsy id, else construct the `AttachmentFile`.
(The source also memoizes the freshly constructed object on the
instance before returning it; the memo holds exactly the returned
value, so the model elides that write.) -/
def attachmentGet (attr : String) (inst : List (String × Value)) : Value :=
  match dictGet? inst (cacheKey attr) with
  | some v => v
  | Option.none =>
      let aid := dictGetD inst (attr ++ "_id") .none
      let aurl := dictGetD inst (attr ++ "_url") .none
      let afn := dictGetD inst (attr ++ "_filename") .none
      let asz := dictGetD inst (attr ++ "_size") .none
      if !aid.truthy then .none
      else attachmentFileInit aid aurl asz afn .none

/-- Model of `__set__` for every field kind.  The base `Field.__set__` raises
`FieldTypeError` when `validate` returns a falsy result, then stores
the value in the instance `__dict__` under the field's `name`
(fields.py lines 127-140).  `DateField.__set__` first truncates a
timestamp string to its date part (`value.split("T")[0]`, lines
298-311); `DecimalField.__set__` first applies `float` to non-null
values (lines 358-359); `AttachmentField.__set__` is fully custom. -/
def fieldSet (fd : FieldDef) (inst : List (String × Value)) (v : Value) :
    Except PyErr (List (String × Value)) :=
  match fd with
  | .attachment _ _ attr => attachmentSet attr inst v
  | .date n => do
      let v' := match v with
        | .str s => .str (s.takeWhile (fun c => c ≠ 'T'))
        | v => v
      let b ← fieldValidate fd v'
      if !b then .error (.fieldTypeError n)
      else .ok (dictSet inst n v')
  | .decimal n => do
      let v' ← match v with
        | .none => Except.ok Value.none
        | v => pyFloat v
      let b ← fieldValidate fd v'
      if !b then .error (.fieldTypeError n)
      else .ok (dictSet inst n v')
  | fd => do
      let b ← fieldValidate fd v
      if !b then .error (.fieldTypeError fd.storageName)
      else .ok (dictSet inst fd.storageName v)

/-- Model of `__get__` for every field kind: `instance.__dict__.get(self.name)`
(fields.py lines 114-125), except for `AttachmentField`. -/
def fieldGet (fd : FieldDef) (inst : List (String × Value)) : Value :=
  match fd with
  | .attachment _ _ attr => attachmentGet attr inst
  | fd => dictGetD inst fd.storageName .none

/-- A `CustomObject` subclass: its name and the `Field` entries of its
class `__dict__`, in declaration order. -/
structure ClassDef where
  className : String
  decls : List (String × FieldDef)

/-- A `CustomObject` instance: its `__dict__` (field slots, `id`,
`name`, attachment companion slots, metadata — all instance
attributes live here). -/
structure Entity where
  attrs : List (String × Value)

/-- Look up the `Field` descriptor declared under a class-attribute
name. -/
def findDecl (cls : ClassDef) (k : String) : Option FieldDef :=
  (cls.decls.find? (fun p => p.1 = k)).map Prod.snd

/-- Model of `setattr(instance, k, v)`: routed through the descriptor's
`__set__` when the class declares a `Field` under `k`, otherwise a
plain instance-attribute write. -/
def setattrE (cls : ClassDef) (e : Entity) (k : String) (v : Value) : Except PyErr Entity :=
  match findDecl cls k with
  | some fd => do
      let a ← fieldSet fd e.attrs v
      .ok ⟨a⟩
  | Option.none => .ok ⟨dictSet e.attrs k v⟩

/-- Model of `getattr(instance, k, default)`: routed through the descriptor's
`__get__` when declared, otherwise a plain instance-attribute read
falling back to the default. -/
def getattrE (cls : ClassDef) (e : Entity) (k : String) (dflt : Value) : Value :=
  match findDecl cls k with
  | some fd => fieldGet fd e.attrs
  | Option.none => dictGetD e.attrs k dflt

/-- Model of `hasattr(instance, k)` for the attributes the embedded code probes:
true when the class declares a descriptor under `k` (its `__get__`
never raises) or the instance `__dict__` holds `k`. -/
def hasattrE (cls : ClassDef) (e : Entity) (k : String) : Bool :=
  match findDecl cls k with
  | some _ => true
  | Option.none => (dictGet? e.attrs k).isSome

/-- Model of `getattr(instance, k)` without a default: raises `AttributeError`
when the attribute is absent. -/
def getattrStrict (cls : ClassDef) (e : Entity) (k : String) : Except PyErr Value :=
  if hasattrE cls e k then .ok (getattrE cls e k .none)
  else .error (.attributeError k)

/-- Model of `CustomObject.__init__` (base.py lines 34-40): set `id` and `name`
to `None`, then assign `kwargs.get(field_name)` to every declared
field (through its descriptor, so validation runs). -/
def entityInit (cls : ClassDef) (kwargs : List (String × Value)) : Except PyErr Entity := do
  let e0 : Entity := ⟨[]⟩
  let e1 ← setattrE cls e0 "id" .none
  let e2 ← setattrE cls e1 "name" .none
  cls.decls.foldlM
    (fun e p => setattrE cls e p.1 (dictGetD kwargs p.1 .none)) e2

/-- Model of `CustomObject.is_namefield_autoincrement` (base.py lines 51-62):
find the class attribute named `"name"`; if it is a `NameField`, return
its `autoincrement_enabled`, else `False`. -/
def is_namefield_autoincrement (cls : ClassDef) : Bool :=
  match findDecl cls "name" with
  | some (.nameF cfg) => cfg.autoincrement_enabled
  | _ => false

/-- The system metadata keys (fields.py `DEFAULT_FIELDS`). -/
def DEFAULT_FIELDS : List String :=
  ["id", "name", "created_at", "updated_at",
   "created_by_user_id", "updated_by_user_id", "external_id"]

/-- Model of `DropdownField`/`MultiselectField` `.get_to_save(self, None)` as
called by `CustomObject.to_save` (base.py lines 181-183).

Modelled from the spec: `get_to_save` is referenced by base.py but not
defined under src/ (fields.py defines only `get_to_representation`);
spec §4.2 says the wire payload "for Choice fields, calls their
representation logic when the value is non-null", i.e. the
`get_to_representation` of fields.py lines 472-479 / 601-610. -/
def choiceGetToSave (fd : FieldDef) (inst : List (String × Value)) : Except PyErr Value :=
  match fd with
  | .dropdown f => dropdownGetToRepresentation f (fieldGet fd inst)
  | .multiselect f => multiselectGetToRepresentation f (fieldGet fd inst)
  | _ => .error (.attributeError "get_to_save")

/-- One iteration of the `to_save` loop over the class `__dict__`
(base.py lines 177-186): a Dropdown/Multiselect attribute is first set
to `None` and then, when the descriptor value is non-null, overwritten
with its `get_to_save` representation; any other `Field` attribute
contributes its descriptor value. -/
def toSaveStep (inst : List (String × Value)) (acc : List (String × Value))
    (p : String × FieldDef) : Except PyErr (List (String × Value)) :=
  match p.2 with
  | .dropdown _ | .multiselect _ =>
      let acc1 := dictSet acc p.1 .none
      (match fieldGet p.2 inst with
       | .none => Except.ok acc1
       | _ => do
           let r ← choiceGetToSave p.2 inst
           Except.ok (dictSet acc1 p.1 r))
  | fd => Except.ok (dictSet acc p.1 (fieldGet fd inst))

/-- Model of `CustomObject.to_save` (base.py lines 158-191): the seven metadata
attributes read with a `None` default; per declared field, a Choice
field contributes `None` or its `get_to_save` representation, any
other field its descriptor value; null metadata entries are dropped
and the rest merged over the custom fields (`{**custom_fields,
**default_fields}`). -/
def to_save (cls : ClassDef) (e : Entity) : Except PyErr (List (String × Value)) := do
  let default_fields : List (String × Value) :=
    DEFAULT_FIELDS.map (fun k => (k, getattrE cls e k .none))
  let custom_fields ← cls.decls.foldlM (toSaveStep e.attrs) ([] : List (String × Value))
  let defaults' := default_fields.filter (fun kv => !kv.2.isNone)
  .ok (dictMerge custom_fields defaults')

/-- The value `to_save` records for one declared field: `None` or the
representation for a Choice field, the raw descriptor value for every
other field kind. -/
def customFieldEntry (fd : FieldDef) (inst : List (String × Value)) : Except PyErr Value :=
  match fd with
  | .dropdown _ | .multiselect _ =>
      match fieldGet fd inst with
      | .none => .ok .none
      | _ => choiceGetToSave fd inst
  | fd => .ok (fieldGet fd inst)

/-- The single HTTP request a `save` call issues. -/
inductive Request where
  | post (path : String) (body : Value)
  | patch (path : String) (body : Value)

def Request.isPost : Request → Bool
  | .post .. => true
  | .patch .. => false

def Request.path : Request → String
  | .post p _ => p
  | .patch p _ => p

/-- The path of the create request (base.py line 89). -/
def saveCreatePath (clsName : String) : String :=
  "/custom_objects/" ++ pyLower clsName ++ "/records"

/-- The path of the update request (base.py line 104). -/
def saveUpdatePath (clsName idStr : String) : String :=
  "/custom_objects/" ++ pyLower clsName ++ "/records/" ++ idStr

/-- The path of the delete request (base.py line 120) — note the class
name is NOT lowercased here. -/
def deleteRecordPath (clsName idStr : String) : String :=
  "/custom_objects/" ++ clsName ++ "/records/" ++ idStr

/-- Model of `response.get("details", {}).get("base", [{}])[0].get("description", "")`
(base.py line 92). -/
def uniqueViolationDescription (resp : Value) : Except PyErr Value := do
  let details := vgetD resp "details" (.dict [])
  let base := vgetD details "base" (.list [.dict []])
  let first ← match base with
    | .list (x :: _) => Except.ok x
    | .list [] => Except.error PyErr.indexError
    | _ => Except.error (PyErr.typeError "not subscriptable")
  .ok (vgetD first "description" (.str ""))

/-- The create branch of `CustomObject.save` (base.py lines 87-102):
check the response for a name-uniqueness violation, then for a non-201
status, then store the returned id and name on the entity. -/
def saveCreate (cls : ClassDef) (e : Entity) (resp : Value) (data : Value) :
    Except PyErr (Request × Entity × Value) := do
  let desc ← uniqueViolationDescription resp
  if desc.eqStr "Name already exists. Try another one." then do
    let n ← getattrStrict cls e "name"
    .error (.uniqueConstraintError n)
  else if !(vgetD resp "status_code" (.int 201)).eqInt 201 then
    .error .createRecordError
  else do
    let recV ← vIndex resp "custom_object_record"
    let rid ← vIndex recV "id"
    let rname ← vIndex recV "name"
    let e1 ← setattrE cls e "id" rid
    let e2 ← setattrE cls e1 "name" rname
    .ok (.post (saveCreatePath cls.className) data, e2, resp)

/-- The update branch of `CustomObject.save` (base.py lines 103-110):
check for a non-200 status; the entity is not mutated. -/
def saveUpdate (cls : ClassDef) (e : Entity) (resp : Value) (data : Value) (idV : Value) :
    Except PyErr (Request × Entity × Value) :=
  if !(vgetD resp "status_code" (.int 200)).eqInt 200 then
    .error .updateRecordError
  else
    .ok (.patch (saveUpdatePath cls.className idV.pyStr) data, e, resp)

/-- Model of `CustomObject.save` (base.py lines 64-110), with the transport's
response for the single issued request supplied as a parameter.  The
payload is built first (`to_save`, the name — `(getattr(self, "name")
or "Unnamed Object") if not autoincrement else None` — and the
external id); then `if not hasattr(self, "id") or not self.id` selects
the create branch, else the update branch.  Returns the request that
was issued, the entity state after the call and the returned
response. -/
def save (cls : ClassDef) (e : Entity) (resp : Value) :
    Except PyErr (Request × Entity × Value) := do
  let fieldsPayload ← to_save cls e
  let nameV ←
    if is_namefield_autoincrement cls then .ok Value.none
    else do
      let n ← getattrStrict cls e "name"
      .ok (pyOr n (.str "Unnamed Object"))
  let extId := getattrE cls e "external_id" .none
  let data := Value.dict [("custom_object_record", .dict
    [("custom_object_fields", .dict fieldsPayload),
     ("name", nameV),
     ("external_id", extId)])]
  let idPresent := hasattrE cls e "id"
  let idV := if idPresent then getattrE cls e "id" .none else .none
  if !idPresent || !idV.truthy then saveCreate cls e resp data
  else saveUpdate cls e resp data idV

/-- Well-formedness of a class declaration, satisfied by every model
class in the repository and its tests: class-attribute names are
unique (Python class dicts cannot repeat keys), every field's wire
`name` equals the attribute it is declared under, no field is declared
under the reserved attribute `id`, and a field declared under `name`
is a NameField or plain text field (as in the tests'
`name = fields.TextField("name")`). -/
def nameDeclSimple (cls : ClassDef) : Bool :=
  match findDecl cls "name" with
  | some (.nameF _) | some (.text _) | some (.textarea _) => true
  | some _ => false
  | Option.none => true

def WF (cls : ClassDef) : Prop :=
  (cls.decls.map Prod.fst).Nodup ∧
  (∀ p ∈ cls.decls, p.2.storageName = p.1) ∧
  (∀ p ∈ cls.decls, p.1 ≠ "id") ∧
  nameDeclSimple cls = true

instance (cls : ClassDef) : Decidable (WF cls) := by
  unfold WF
  infer_instance

/-- Model of `CustomObject.delete` (base.py lines 112-127): issues the delete
request with the class name verbatim, raises `DeleteRecordError` on a
non-204 status. -/
def deleteE (cls : ClassDef) (e : Entity) (resp : Value) :
    Except PyErr (String × Value) := do
  let idV ← getattrStrict cls e "id"
  let path := deleteRecordPath cls.className idV.pyStr
  if !(vgetD resp "status_code" (.int 204)).eqInt 204 then
    .error .deleteRecordError
  else
    .ok (path, resp)

/-- Model of `RecordManager.get` on non-id criteria
(mercuryfieldservice/record_manager.py lines 54-61), with the result of
the delegated `filter(**kwargs)` call supplied as a parameter (the
`QuerySet` implementation lives in `mercuryfieldservice/managers.py`,
outside the verified core): zero matches and multiple matches both
raise `ValueError`; a unique match is returned. -/
def recordManagerGetFiltered (modelName : String) (result : List Value) :
    Except PyErr Value :=
  if result.length = 0 then
    .error (.valueError (modelName ++ " matching query does not exist."))
  else if result.length > 1 then
    .error (.valueError ("Multiple " ++ modelName ++ " objects returned; expected exactly one."))
  else
    match result with
    | r :: _ => .ok r
    | [] => .error .indexError

/-- A timezone-aware instant (`datetime.datetime` with a fixed-offset
`tzinfo`), e.g. `2023-07-15T10:30:45+00:00`. -/
structure PyDateTime where
  year : Nat
  month : Nat
  day : Nat
  hour : Nat
  minute : Nat
  second : Nat
  microsecond : Nat
  offsetMinutes : Int
deriving DecidableEq, Repr

/-- A wire value of one of the two keys a DateTime field writes: the
date component, or the time-of-day component with its UTC offset. -/
inductive WireDT where
  | dateV (y m d : Nat)
  | timeV (h mi s us : Nat) (off : Int)
deriving DecidableEq, Repr

/-- Write path: decompose the instant into the wire keys `{name}`
(date) and `{name}_time` (time-of-day with offset). -/
def dateTimeFieldToWire (name : String) (dt : PyDateTime) : List (String × WireDT) :=
  [(name, .dateV dt.year dt.month dt.day),
   (name ++ "_time", .timeV dt.hour dt.minute dt.second dt.microsecond dt.offsetMinutes)]

def wireLookup : List (String × WireDT) → String → Option WireDT
  | [], _ => Option.none
  | (k, v) :: rest, key => if k = key then some v else wireLookup rest key

/-- Read path: reconstruct the instant from the two wire fields. -/
def dateTimeFieldFromWire (name : String) (wire : List (String × WireDT)) : Option PyDateTime :=
  match wireLookup wire name, wireLookup wire (name ++ "_time") with
  | some (.dateV y m d), some (.timeV h mi s us off) => some ⟨y, m, d, h, mi, s, us, off⟩
  | _, _ => Option.none

/-- Does an `Except` hold a `RegexCompileError`? -/
def isRegexCompileErr : Except PyErr FieldDef → Bool
  | .error (.regexCompileError _) => true
  | _ => false

/-- Does an `Except` hold a propagated `re.error`? -/
def isREErr : Except PyErr FieldDef → Bool
  | .error (.reError _) => true
  | _ => false

/-- An already-uploaded attachment value used in the C7 counterexample. -/
def attachX : Value :=
  .file (.str "9") (.str "http://u") (.int 3) (.str "n.pdf") .none true Option.none

/-- The upload response shape of the transport
(`{"upload": {"attachment": {...}, "token": ...}}`). -/
def uploadResp : Value :=
  .dict [("upload", .dict
    [("attachment", .dict
      [("id", .int 55), ("file_name", .str "report.pdf"),
       ("content_url", .str "http://files/55"), ("size", .int 2048)]),
     ("token", .str "tok1")])]

/-- Does the string contain a basic-latin uppercase character? -/
def hasUpperChar (s : String) : Bool := s.data.any Char.isUpper

/-- The test model class: one text field declared under `codigo`. -/
def clsW : ClassDef := ⟨"Ticket", [("codigo", .text "codigo")]⟩

/-- A never-persisted entity (`id = None`). -/
def eCreateW : Entity := ⟨[("id", .none), ("name", .none), ("codigo", .str "x")]⟩

/-- A persisted entity (`id = "5"`). -/
def eUpdateW : Entity := ⟨[("id", .str "5"), ("name", .none), ("codigo", .str "x")]⟩

/-- A successful create response. -/
def respCreateW : Value :=
  .dict [("custom_object_record", .dict [("id", .str "1"), ("name", .str "T")])]

/-- A successful (default-status) update response. -/
def respEmpty : Value := .dict []

/-- An entity whose id is the non-null falsy value `""`. -/
def eEmptyIdC : Entity := ⟨[("id", .str ""), ("name", .none)]⟩

/-- The trivial class used by the C1 counterexample. -/
def clsNoFields : ClassDef := ⟨"Ticket", []⟩

/-- An entity whose id is the non-null falsy value `0`. -/
def eZeroIdC : Entity := ⟨[("id", .int 0), ("name", .none)]⟩

/-- A create response assigning id 77. -/
def respIdC : Value :=
  .dict [("custom_object_record", .dict [("id", .int 77), ("name", .str "N")])]

/-- A model class with a labelled dropdown and a text field. -/
def clsC2W : ClassDef :=
  ⟨"Ticket",
   [("priority", .dropdown ⟨"priority", [.pair "low" "Low"], some [("low", "Low")], ["low"]⟩),
    ("codigo", .text "codigo")]⟩

/-- An instance with both fields set and a non-null `id`. -/
def eC2W : Entity := ⟨[("priority", .str "low"), ("codigo", .str "x"), ("id", .int 9)]⟩

/-- The `to_save` payload of `eC2W`. -/
def payloadC2W : List (String × Value) :=
  [("priority", .dict [("value", .str "low"), ("label", .str "Low")]),
   ("codigo", .str "x"), ("id", .int 9)]

/-- A class that declares a Dropdown under the metadata attribute name
`external_id`. -/
def clsC2X : ClassDef :=
  ⟨"X", [("external_id", .dropdown ⟨"external_id", [.pair "a" "A"], some [("a", "A")], ["a"]⟩)]⟩

/-- Its instance with the dropdown set to the member key `"a"`. -/
def eC2X : Entity := ⟨[("external_id", .str "a")]⟩

/-! ## Theorems -/

theorem dictGet?_dictSet_self (d : List (String × Value)) (k : String) (v : Value) :
    dictGet? (dictSet d k v) k = some v := by
  induction d with
  | nil => simp [dictSet, dictGet?]
  | cons hd tl ih =>
      by_cases h : hd.1 = k
      · simp [dictSet, dictGet?, h]
      · simp [dictSet, dictGet?, h, ih]
theorem dictGet?_dictSet_ne (d : List (String × Value)) (k k' : String) (v : Value)
    (h : k ≠ k') : dictGet? (dictSet d k v) k' = dictGet? d k' := by
  induction d with
  | nil => simp [dictSet, dictGet?, h]
  | cons hd tl ih =>
      by_cases hk : hd.1 = k
      · simp [dictSet, dictGet?, hk, h]
      · simp [dictSet, dictGet?, hk, ih]
theorem dictSet_dictSet_self (d : List (String × Value)) (k : String) (v w : Value) :
    dictSet (dictSet d k v) k w = dictSet d k w := by
  induction d with
  | nil => simp [dictSet]
  | cons hd tl ih =>
      by_cases hk : hd.1 = k
      · simp [dictSet, hk]
      · simp [dictSet, hk, ih]


/-- C7 (amended): for every field kind, assigning `None` never raises;
for every kind except Attachment the field afterwards reads back as
`None`; for Attachment the assignment is a no-op that leaves the
instance (and hence any previously stored attachment) unchanged. -/
theorem fieldSet_none_never_raises (fd : FieldDef) (inst : List (String × Value)) :
    ∃ inst', fieldSet fd inst .none = .ok inst' ∧
      (fd.isAttachment = false → fieldGet fd inst' = .none) ∧
      (fd.isAttachment = true → inst' = inst) := by
  cases fd with
  | attachment a b c =>
      exact ⟨inst, rfl, fun h => by simp [FieldDef.isAttachment] at h, fun _ => rfl⟩
  | nameF cfg =>
      refine ⟨dictSet inst "name" .none, rfl, fun _ => ?_, fun h => by simp [FieldDef.isAttachment] at h⟩
      simp [fieldGet, FieldDef.storageName, dictGetD, dictGet?_dictSet_self]
  | dropdown f =>
      refine ⟨dictSet inst f.name .none, rfl, fun _ => ?_, fun h => by simp [FieldDef.isAttachment] at h⟩
      simp [fieldGet, FieldDef.storageName, dictGetD, dictGet?_dictSet_self]
  | multiselect f =>
      refine ⟨dictSet inst f.name .none, rfl, fun _ => ?_, fun h => by simp [FieldDef.isAttachment] at h⟩
      simp [fieldGet, FieldDef.storageName, dictGetD, dictGet?_dictSet_self]
  | regexp n p =>
      refine ⟨dictSet inst n .none, rfl, fun _ => ?_, fun h => by simp [FieldDef.isAttachment] at h⟩
      simp [fieldGet, FieldDef.storageName, dictGetD, dictGet?_dictSet_self]
  | lookup n rel =>
      refine ⟨dictSet inst n .none, rfl, fun _ => ?_, fun h => by simp [FieldDef.isAttachment] at h⟩
      simp [fieldGet, FieldDef.storageName, dictGetD, dictGet?_dictSet_self]
  | text n =>
      refine ⟨dictSet inst n .none, rfl, fun _ => ?_, fun h => by simp [FieldDef.isAttachment] at h⟩
      simp [fieldGet, FieldDef.storageName, dictGetD, dictGet?_dictSet_self]
  | textarea n =>
      refine ⟨dictSet inst n .none, rfl, fun _ => ?_, fun h => by simp [FieldDef.isAttachment] at h⟩
      simp [fieldGet, FieldDef.storageName, dictGetD, dictGet?_dictSet_self]
  | checkbox n =>
      refine ⟨dictSet inst n .none, rfl, fun _ => ?_, fun h => by simp [FieldDef.isAttachment] at h⟩
      simp [fieldGet, FieldDef.storageName, dictGetD, dictGet?_dictSet_self]
  | date n =>
      refine ⟨dictSet inst n .none, rfl, fun _ => ?_, fun h => by simp [FieldDef.isAttachment] at h⟩
      simp [fieldGet, FieldDef.storageName, dictGetD, dictGet?_dictSet_self]
  | integer n =>
      refine ⟨dictSet inst n .none, rfl, fun _ => ?_, fun h => by simp [FieldDef.isAttachment] at h⟩
      simp [fieldGet, FieldDef.storageName, dictGetD, dictGet?_dictSet_self]
  | decimal n =>
      refine ⟨dictSet inst n .none, rfl, fun _ => ?_, fun h => by simp [FieldDef.isAttachment] at h⟩
      simp [fieldGet, FieldDef.storageName, dictGetD, dictGet?_dictSet_self]

@[simp] theorem exceptOk_bind {α β ε : Type} (a : α) (g : α → Except ε β) :
    (Except.ok a >>= g) = g a := rfl

@[simp] theorem exceptError_bind {α β ε : Type} (e : ε) (g : α → Except ε β) :
    ((Except.error e : Except ε α) >>= g) = Except.error e := rfl

theorem String.self_ne_append_time (s : String) : (s = s ++ "_time") = False := by
  simp only [eq_iff_iff, iff_false]
  intro h
  have h2 : (s ++ "_time").length = s.length + 5 := by
    rw [String.length_append]
    rfl
  rw [← h] at h2
  omega

/-- C3: for every DateTime field name and every timezone-aware instant,
decomposing into the two wire keys `{name}` (date) and `{name}_time`
(time-of-day) and reading them back reconstructs an instant equal to
the original, with date, time-of-day and offset all preserved. -/
theorem dateTimeField_roundtrip (name : String) (dt : PyDateTime) :
    dateTimeFieldFromWire name (dateTimeFieldToWire name dt) = some dt := by
  simp [dateTimeFieldFromWire, dateTimeFieldToWire, wireLookup,
    String.self_ne_append_time]

/-- C5: `RecordManager.get` called with non-id criteria delegates to
`filter`; it raises a `ValueError` (the "ambiguous result" error
family) both when the filtered result is empty and when it holds more
than one record, and returns the unique record when exactly one
matches. -/
theorem recordManagerGet_zero_many_one (modelName : String) (result : List Value) :
    (result.length = 0 →
      recordManagerGetFiltered modelName result =
        .error (.valueError (modelName ++ " matching query does not exist."))) ∧
    (result.length > 1 →
      recordManagerGetFiltered modelName result =
        .error (.valueError ("Multiple " ++ modelName ++ " objects returned; expected exactly one."))) ∧
    (∀ r, result = [r] → recordManagerGetFiltered modelName result = .ok r) := by
  refine ⟨?_, ?_, ?_⟩
  · intro h
    simp [recordManagerGetFiltered, h]
  · intro h
    have h0 : ¬ result.length = 0 := by omega
    simp [recordManagerGetFiltered, h0, h]
  · intro r hr
    subst hr
    simp [recordManagerGetFiltered]

theorem recordManagerGet_zero_many_one_witness :
    (([] : List Value).length = 0 ∧
      recordManagerGetFiltered "Ticket" [] =
        .error (.valueError "Ticket matching query does not exist.")) ∧
    (([Value.int 1, Value.int 2].length > 1) ∧
      recordManagerGetFiltered "Ticket" [Value.int 1, Value.int 2] =
        .error (.valueError "Multiple Ticket objects returned; expected exactly one.")) ∧
    recordManagerGetFiltered "Ticket" [Value.int 7] = .ok (Value.int 7) := by
  refine ⟨⟨rfl, ?_⟩, ⟨by decide, ?_⟩, ?_⟩
  · exact (recordManagerGet_zero_many_one "Ticket" []).1 rfl
  · exact (recordManagerGet_zero_many_one "Ticket" [Value.int 1, Value.int 2]).2.1 (by decide)
  · exact (recordManagerGet_zero_many_one "Ticket" [Value.int 7]).2.2 (Value.int 7) rfl

/-- C6 (code bug): `RegexpField.__init__` can never raise
`RegexCompileError` — `_check_pattern` is `bool(re.compile(pattern))`,
and a compiled pattern object is always truthy, so the check either
returns `True` or lets the underlying `re.error` escape; on the
malformed pattern `"("` the constructor raises `re.error`, not the
`RegexCompileError` the spec promises. -/
theorem regexpFieldInit_never_regexCompileError :
    (∀ n p, isRegexCompileErr (regexpFieldInit n p) = false) ∧
    regexpFieldInit "code" "(" = .error (.reError "(") := by
  constructor
  · intro n p
    unfold regexpFieldInit checkPattern
    cases h : reCompile p with
    | error e =>
        have he : ∃ q, e = PyErr.reError q := by
          unfold reCompile at h
          split at h
          · exact absurd h (by simp)
          · exact ⟨p, by injection h with h'; rw [← h']⟩
        obtain ⟨q, hq⟩ := he
        simp [hq, isRegexCompileErr]
    | ok w => simp [isRegexCompileErr]
  · rfl

/-- C4 (amended): for every Dropdown or Multiselect field whose derived
`possible_keys` is non-empty, assigning a non-member string (for
Multiselect, a list containing a non-member element) raises
InvalidChoice, assigning a member string (a list of member strings)
succeeds and reads back unchanged, and after every successful
assignment the stored value is `None` or consists only of members. -/
theorem choiceField_membership
    (name : String) (choices : List Choice) (f : ChoiceFieldData)
    (hinit : choiceFieldInit name choices = some f)
    (hne : f.possible_keys ≠ []) :
    (∀ (s : String) (inst : List (String × Value)), s ∉ f.possible_keys →
        fieldSet (.dropdown f) inst (.str s) = .error (.invalidChoice f.name (.str s))) ∧
    (∀ (s : String) (inst : List (String × Value)), s ∈ f.possible_keys →
        fieldSet (.dropdown f) inst (.str s) = .ok (dictSet inst f.name (.str s)) ∧
        fieldGet (.dropdown f) (dictSet inst f.name (.str s)) = .str s) ∧
    (∀ (v : Value) (inst inst' : List (String × Value)),
        fieldSet (.dropdown f) inst v = .ok inst' →
        v = .none ∨ ∃ s, v = .str s ∧ s ∈ f.possible_keys) ∧
    (∀ (xs : List Value) (inst : List (String × Value)) (it : Value),
        it ∈ xs → keyMember f.possible_keys it = false →
        ∃ bad, fieldSet (.multiselect f) inst (.list xs) =
            .error (.invalidChoice f.name bad) ∧ keyMember f.possible_keys bad = false) ∧
    (∀ (xs : List String) (inst : List (String × Value)),
        (∀ s ∈ xs, s ∈ f.possible_keys) →
        fieldSet (.multiselect f) inst (.list (xs.map Value.str)) =
          .ok (dictSet inst f.name (.list (xs.map Value.str))) ∧
        fieldGet (.multiselect f) (dictSet inst f.name (.list (xs.map Value.str))) =
          .list (xs.map Value.str)) ∧
    (∀ (v : Value) (inst inst' : List (String × Value)),
        fieldSet (.multiselect f) inst v = .ok inst' →
        v = .none ∨ ∃ xs, v = .list xs ∧ ∀ it ∈ xs, keyMember f.possible_keys it = true) := by
  have hne' : f.possible_keys.isEmpty = false := by
    cases h : f.possible_keys with
    | nil => exact absurd h hne
    | cons a l => simp [List.isEmpty]
  refine ⟨?_, ?_, ?_, ?_, ?_, ?_⟩
  · intro s inst hs
    have hc : f.possible_keys.contains s = false := by
      rw [← Bool.not_eq_true, List.contains_iff_exists_mem_beq]
      simp only [beq_iff_eq, not_exists]
      intro x ⟨hx, he⟩
      exact hs (he ▸ hx)
    simp [fieldSet, fieldValidate, dropdownValidate, FieldDef.storageName, hne', hc, hs]
  · intro s inst hs
    have hc : f.possible_keys.contains s = true :=
      List.contains_iff_exists_mem_beq.mpr ⟨s, hs, by simp⟩
    constructor
    · simp [fieldSet, fieldValidate, dropdownValidate, FieldDef.storageName, hne', hc, hs]
    · simp [fieldGet, FieldDef.storageName, dictGetD, dictGet?_dictSet_self]
  · intro v inst inst' hok
    cases v with
    | none => exact Or.inl rfl
    | str s =>
        refine Or.inr ⟨s, rfl, ?_⟩
        by_contra hs
        have hc : f.possible_keys.contains s = false := by
          rw [← Bool.not_eq_true, List.contains_iff_exists_mem_beq]
          simp only [beq_iff_eq, not_exists]
          intro x ⟨hx, he⟩
          exact hs (he ▸ hx)
        simp [fieldSet, fieldValidate, dropdownValidate, FieldDef.storageName, hne', hc, hs] at hok
    | bool b => simp [fieldSet, fieldValidate, dropdownValidate] at hok
    | int n => simp [fieldSet, fieldValidate, dropdownValidate] at hok
    | float n => simp [fieldSet, fieldValidate, dropdownValidate] at hok
    | bytes bs => simp [fieldSet, fieldValidate, dropdownValidate] at hok
    | list xs => simp [fieldSet, fieldValidate, dropdownValidate] at hok
    | dict kvs => simp [fieldSet, fieldValidate, dropdownValidate] at hok
    | file a b c d e g h => simp [fieldSet, fieldValidate, dropdownValidate] at hok
  · intro xs inst it hmem hbad
    have hsome : (xs.find? (fun x => !f.possible_keys.isEmpty && !keyMember f.possible_keys x)).isSome := by
      rw [List.find?_isSome]
      exact ⟨it, hmem, by simp [hne', hbad]⟩
    obtain ⟨bad, hfind⟩ := Option.isSome_iff_exists.mp hsome
    have hbadp := List.find?_some hfind
    simp only [hne', Bool.not_false, Bool.true_and, Bool.not_eq_true'] at hbadp
    refine ⟨bad, ?_, hbadp⟩
    simp [fieldSet, fieldValidate, multiselectValidate, FieldDef.storageName, hfind]
  · intro xs inst hall
    have hnone : (xs.map Value.str).find? (fun x => !f.possible_keys.isEmpty && !keyMember f.possible_keys x) = Option.none := by
      rw [List.find?_eq_none]
      intro x hx
      obtain ⟨s, hs, rfl⟩ := List.mem_map.mp hx
      have : f.possible_keys.contains s = true :=
        List.contains_iff_exists_mem_beq.mpr ⟨s, hall s hs, by simp⟩
      simp only [keyMember, this, Bool.not_true, Bool.and_false, not_false_eq_true]
      simp
    constructor
    · simp [fieldSet, fieldValidate, multiselectValidate, FieldDef.storageName, hnone]
    · simp [fieldGet, FieldDef.storageName, dictGetD, dictGet?_dictSet_self]
  · intro v inst inst' hok
    cases v with
    | none => exact Or.inl rfl
    | list xs =>
        refine Or.inr ⟨xs, rfl, ?_⟩
        intro it hit
        by_contra hbad
        rw [Bool.not_eq_true] at hbad
        have hsome : (xs.find? (fun x => !f.possible_keys.isEmpty && !keyMember f.possible_keys x)).isSome := by
          rw [List.find?_isSome]
          exact ⟨it, hit, by simp [hne', hbad]⟩
        obtain ⟨bad, hfind⟩ := Option.isSome_iff_exists.mp hsome
        simp [fieldSet, fieldValidate, multiselectValidate, FieldDef.storageName, hfind] at hok
    | str s => simp [fieldSet, fieldValidate, multiselectValidate] at hok
    | bool b => simp [fieldSet, fieldValidate, multiselectValidate] at hok
    | int n => simp [fieldSet, fieldValidate, multiselectValidate] at hok
    | float n => simp [fieldSet, fieldValidate, multiselectValidate] at hok
    | bytes bs => simp [fieldSet, fieldValidate, multiselectValidate] at hok
    | dict kvs => simp [fieldSet, fieldValidate, multiselectValidate] at hok
    | file a b c d e g h => simp [fieldSet, fieldValidate, multiselectValidate] at hok

theorem choiceField_membership_witness :
    (choiceFieldInit "priority" [.pair "low" "Low", .pair "high" "High"] =
        some ⟨"priority", [.pair "low" "Low", .pair "high" "High"],
              some [("low", "Low"), ("high", "High")], ["low", "high"]⟩) ∧
    fieldSet (.dropdown ⟨"priority", [.pair "low" "Low", .pair "high" "High"],
        some [("low", "Low"), ("high", "High")], ["low", "high"]⟩) [] (.str "urgent") =
      .error (.invalidChoice "priority" (.str "urgent")) ∧
    fieldSet (.dropdown ⟨"priority", [.pair "low" "Low", .pair "high" "High"],
        some [("low", "Low"), ("high", "High")], ["low", "high"]⟩) [] (.str "low") =
      .ok [("priority", .str "low")] ∧
    fieldGet (.dropdown ⟨"priority", [.pair "low" "Low", .pair "high" "High"],
        some [("low", "Low"), ("high", "High")], ["low", "high"]⟩) [("priority", .str "low")] =
      .str "low" := by
  have hinit : choiceFieldInit "priority" [.pair "low" "Low", .pair "high" "High"] =
      some ⟨"priority", [.pair "low" "Low", .pair "high" "High"],
            some [("low", "Low"), ("high", "High")], ["low", "high"]⟩ := rfl
  have h := choiceField_membership "priority" [.pair "low" "Low", .pair "high" "High"]
    ⟨"priority", [.pair "low" "Low", .pair "high" "High"],
     some [("low", "Low"), ("high", "High")], ["low", "high"]⟩ hinit (by simp)
  refine ⟨hinit, ?_, ?_, ?_⟩
  · exact h.1 "urgent" [] (by simp)
  · exact (h.2.1 "low" [] (by simp)).1
  · exact (h.2.1 "low" [] (by simp)).2

/-- C4 counterexample: a Dropdown declared with an empty choices list
has empty `possible_keys`, and the `if self.possible_keys and ...`
guard then skips the membership check entirely, so the non-member
string `"zzz"` is accepted rather than raising InvalidChoice; and
a non-string value outside `possible_keys` raises `FieldTypeError`,
not InvalidChoice. -/
theorem choiceField_counterexample :
    choiceFieldInit "f" [] = some ⟨"f", [], Option.none, []⟩ ∧
    fieldSet (.dropdown ⟨"f", [], Option.none, []⟩) [] (.str "zzz") =
      .ok [("f", .str "zzz")] ∧
    ("zzz" ∈ ([] : List String) → False) ∧
    fieldSet (.multiselect ⟨"g", [], Option.none, []⟩) [] (.list [.str "zzz"]) =
      .ok [("g", .list [.str "zzz"])] ∧
    fieldSet (.dropdown ⟨"fld", [.bare "a"], Option.none, ["a"]⟩) [] (.int 3) =
      .error (.fieldTypeError "fld") ∧
    keyMember ["a"] (.int 3) = false := by
  exact ⟨rfl, rfl, by simp, rfl, rfl, rfl⟩

theorem fieldSet_none_never_raises_witness :
    ∃ inst',
      fieldSet (.text "codigo") [("codigo", Value.str "x")] .none = .ok inst' ∧
      ((FieldDef.text "codigo").isAttachment = false →
        fieldGet (.text "codigo") inst' = .none) ∧
      ((FieldDef.text "codigo").isAttachment = true →
        inst' = [("codigo", Value.str "x")]) :=
  fieldSet_none_never_raises (.text "codigo") [("codigo", Value.str "x")]

/-- C7 counterexample: on an Attachment field, after an
`AttachmentFile` has been assigned, assigning `None` is silently
ignored (`if value is not None` guards the whole `__set__` body), so
reading the field back yields the previously stored attachment, not
`None`. -/
theorem attachmentField_set_none_counterexample :
    fieldSet (.attachment "doc" "ticket_doc" "doc") [] attachX =
      .ok [("__doc_file", attachX), ("doc_id", .str "9"), ("doc_url", .str "http://u"),
           ("doc_filename", .str "n.pdf"), ("doc_size", .int 3)] ∧
    fieldSet (.attachment "doc" "ticket_doc" "doc")
      [("__doc_file", attachX), ("doc_id", .str "9"), ("doc_url", .str "http://u"),
       ("doc_filename", .str "n.pdf"), ("doc_size", .int 3)] .none =
      .ok [("__doc_file", attachX), ("doc_id", .str "9"), ("doc_url", .str "http://u"),
           ("doc_filename", .str "n.pdf"), ("doc_size", .int 3)] ∧
    fieldGet (.attachment "doc" "ticket_doc" "doc")
      [("__doc_file", attachX), ("doc_id", .str "9"), ("doc_url", .str "http://u"),
       ("doc_filename", .str "n.pdf"), ("doc_size", .int 3)] = attachX ∧
    ¬ attachX = Value.none := by
  refine ⟨rfl, rfl, rfl, by simp [attachX]⟩

/-- A successful `AttachmentFile.save` always leaves the file marked
`saved`. -/
theorem attachmentFileSave_ok_saved (v r v1 : Value) (b1 : Bool)
    (h : attachmentFileSave v r = .ok (v1, b1)) : v1.fileSaved = true := by
  cases v with
  | file fid furl fsize fname fcontent saved token =>
      unfold attachmentFileSave at h
      by_cases hs : saved
      · simp only [hs, if_pos] at h
        injection h with h'
        rw [← (Prod.mk.injEq ..).mp h' |>.1]
        simp [Value.fileSaved, hs]
      · simp only [hs, if_neg, Bool.false_eq_true, if_false] at h
        by_cases hb : isinstBytes fcontent
        · simp only [hb, Bool.not_true, Bool.false_eq_true, if_false] at h
          cases hu : uploadExtract r with
          | error e => rw [hu] at h; exact absurd h (by simp)
          | ok t =>
              obtain ⟨nid, nfn, nurl, nsz, ntok⟩ := t
              rw [hu] at h
              injection h with h'
              rw [← (Prod.mk.injEq ..).mp h' |>.1]
              simp [Value.fileSaved]
        · simp only [Bool.not_eq_true] at hb
          simp [hb] at h
  | none => exact absurd h (by simp [attachmentFileSave])
  | bool b => exact absurd h (by simp [attachmentFileSave])
  | int n => exact absurd h (by simp [attachmentFileSave])
  | float n => exact absurd h (by simp [attachmentFileSave])
  | str s => exact absurd h (by simp [attachmentFileSave])
  | bytes bs => exact absurd h (by simp [attachmentFileSave])
  | list xs => exact absurd h (by simp [attachmentFileSave])
  | dict kvs => exact absurd h (by simp [attachmentFileSave])

/-- C8: `AttachmentFile.save` is idempotent — on an already-`saved`
file it performs no upload and returns without error, and after any
successful save a second save performs no upload; on an unsaved file it
fails when the local content is absent or not a `bytes` buffer, and
otherwise performs exactly one upload, storing the remote id, filename,
url, size and upload token and setting `saved`. -/
theorem attachmentFileSave_idempotent
    (v r r2 : Value) :
    (v.fileSaved = true → attachmentFileSave v r = .ok (v, false)) ∧
    (∀ v1 b1, attachmentFileSave v r = .ok (v1, b1) →
        attachmentFileSave v1 r2 = .ok (v1, false)) ∧
    (v.isFile = true → v.fileSaved = false → isinstBytes v.fileContent = false →
        attachmentFileSave v r =
          .error (.valueError "Content attribute must be of type bytes.")) ∧
    (∀ v1 b1 nid nfn nurl nsz ntok,
        v.fileSaved = false →
        uploadExtract r = .ok (nid, nfn, nurl, nsz, ntok) →
        attachmentFileSave v r = .ok (v1, b1) →
        b1 = true ∧ v1 = .file nid nurl nsz nfn v.fileContent true (some ntok)) := by
  refine ⟨?_, ?_, ?_, ?_⟩
  · intro hs
    cases v with
    | file fid furl fsize fname fcontent saved token =>
        simp only [Value.fileSaved] at hs
        simp [attachmentFileSave, hs]
    | none => simp [Value.fileSaved] at hs
    | bool b => simp [Value.fileSaved] at hs
    | int n => simp [Value.fileSaved] at hs
    | float n => simp [Value.fileSaved] at hs
    | str s => simp [Value.fileSaved] at hs
    | bytes bs => simp [Value.fileSaved] at hs
    | list xs => simp [Value.fileSaved] at hs
    | dict kvs => simp [Value.fileSaved] at hs
  · intro v1 b1 h
    have hsv := attachmentFileSave_ok_saved v r v1 b1 h
    cases v1 with
    | file fid furl fsize fname fcontent saved token =>
        simp only [Value.fileSaved] at hsv
        simp [attachmentFileSave, hsv]
    | none => simp [Value.fileSaved] at hsv
    | bool b => simp [Value.fileSaved] at hsv
    | int n => simp [Value.fileSaved] at hsv
    | float n => simp [Value.fileSaved] at hsv
    | str s => simp [Value.fileSaved] at hsv
    | bytes bs => simp [Value.fileSaved] at hsv
    | list xs => simp [Value.fileSaved] at hsv
    | dict kvs => simp [Value.fileSaved] at hsv
  · intro hf hs hb
    cases v with
    | file fid furl fsize fname fcontent saved token =>
        simp only [Value.fileSaved] at hs
        simp only [Value.fileContent] at hb
        simp [attachmentFileSave, hs, hb]
    | none => simp [Value.isFile] at hf
    | bool b => simp [Value.isFile] at hf
    | int n => simp [Value.isFile] at hf
    | float n => simp [Value.isFile] at hf
    | str s => simp [Value.isFile] at hf
    | bytes bs => simp [Value.isFile] at hf
    | list xs => simp [Value.isFile] at hf
    | dict kvs => simp [Value.isFile] at hf
  · intro v1 b1 nid nfn nurl nsz ntok hs hu h
    cases v with
    | file fid furl fsize fname fcontent saved token =>
        simp only [Value.fileSaved] at hs
        unfold attachmentFileSave at h
        simp only [hs, Bool.false_eq_true, if_false] at h
        by_cases hb : isinstBytes fcontent
        · simp only [hb, Bool.not_true, Bool.false_eq_true, if_false, hu] at h
          injection h with h'
          have := (Prod.mk.injEq ..).mp h'
          exact ⟨this.2.symm, by simp [Value.fileContent, ← this.1]⟩
        · simp only [Bool.not_eq_true] at hb
          simp [hb] at h
    | none => simp [attachmentFileSave] at h
    | bool b => simp [attachmentFileSave] at h
    | int n => simp [attachmentFileSave] at h
    | float n => simp [attachmentFileSave] at h
    | str s => simp [attachmentFileSave] at h
    | bytes bs => simp [attachmentFileSave] at h
    | list xs => simp [attachmentFileSave] at h
    | dict kvs => simp [attachmentFileSave] at h

theorem attachmentFileSave_idempotent_witness :
    ((Value.file (.str "9") .none .none (.str "a") .none true Option.none).fileSaved = true ∧
      attachmentFileSave (.file (.str "9") .none .none (.str "a") .none true Option.none) uploadResp =
        .ok (.file (.str "9") .none .none (.str "a") .none true Option.none, false)) ∧
    ((Value.file .none .none .none (.str "a") (.bytes [1, 2]) false Option.none).fileSaved = false ∧
      uploadExtract uploadResp =
        .ok (.int 55, .str "report.pdf", .str "http://files/55", .int 2048, .str "tok1") ∧
      attachmentFileSave (.file .none .none .none (.str "a") (.bytes [1, 2]) false Option.none) uploadResp =
        .ok (.file (.int 55) (.str "http://files/55") (.int 2048) (.str "report.pdf")
              (.bytes [1, 2]) true (some (.str "tok1")), true)) ∧
    ((Value.file .none .none .none (.str "a") .none false Option.none).isFile = true ∧
      attachmentFileSave (.file .none .none .none (.str "a") .none false Option.none) uploadResp =
        .error (.valueError "Content attribute must be of type bytes.")) ∧
    attachmentFileSave
        (.file (.int 55) (.str "http://files/55") (.int 2048) (.str "report.pdf")
          (.bytes [1, 2]) true (some (.str "tok1"))) uploadResp =
      .ok (.file (.int 55) (.str "http://files/55") (.int 2048) (.str "report.pdf")
            (.bytes [1, 2]) true (some (.str "tok1")), false) := by
  refine ⟨⟨rfl, ?_⟩, ⟨rfl, rfl, rfl⟩, ⟨rfl, ?_⟩, ?_⟩
  · exact (attachmentFileSave_idempotent
      (.file (.str "9") .none .none (.str "a") .none true Option.none) uploadResp uploadResp).1 rfl
  · exact (attachmentFileSave_idempotent
      (.file .none .none .none (.str "a") .none false Option.none) uploadResp uploadResp).2.2.1 rfl rfl rfl
  · exact (attachmentFileSave_idempotent
      (.file .none .none .none (.str "a") (.bytes [1, 2]) false Option.none) uploadResp uploadResp).2.1
      (.file (.int 55) (.str "http://files/55") (.int 2048) (.str "report.pdf")
        (.bytes [1, 2]) true (some (.str "tok1"))) true rfl

theorem charToLower_ne_of_isUpper (c : Char) (h : c.isUpper = true) :
    Char.toLower c ≠ c := by
  intro heq
  unfold Char.isUpper at h
  simp only [Bool.and_eq_true, decide_eq_true_eq, ge_iff_le] at h
  have hv : 65 ≤ c.toNat ∧ c.toNat ≤ 90 := by
    obtain ⟨h1, h2⟩ := h
    rw [UInt32.le_def, BitVec.le_def] at h1 h2
    exact ⟨h1, h2⟩
  unfold Char.toLower at heq
  rw [if_pos ⟨by omega, by omega⟩] at heq
  have h2 : (Char.ofNat (c.toNat + 32)).toNat = c.toNat + 32 := by
    rw [Char.ofNat, dif_pos]
    · rfl
    · exact Or.inl (by omega)
  rw [heq] at h2
  omega

theorem listMap_eq_self_forall {α : Type} (f : α → α) :
    ∀ l : List α, l.map f = l → ∀ c ∈ l, f c = c := by
  intro l
  induction l with
  | nil => intro _ c hc; cases hc
  | cons a t ih =>
      intro heq c hc
      injection heq with ha ht
      cases hc with
      | head => exact ha
      | tail _ hc' => exact ih ht c hc'

theorem listMapToLower_ne (l : List Char) (h : l.any Char.isUpper = true) :
    l.map Char.toLower ≠ l := by
  intro heq
  obtain ⟨c, hc, hup⟩ := List.any_eq_true.mp h
  exact charToLower_ne_of_isUpper c hup (listMap_eq_self_forall Char.toLower l heq c hc)

theorem pyLower_ne_of_hasUpper (s : String) (h : hasUpperChar s = true) :
    pyLower s ≠ s := by
  intro heq
  have hd : (pyLower s).data = s.data := congrArg String.data heq
  simp only [pyLower] at hd
  exact listMapToLower_ne s.data h hd

/-- C9: `delete()` builds its request path with the class name
verbatim, while `save()` lowercases the class name in both the create
and the update path; consequently, whenever the class name contains an
uppercase character, the delete path names a different type key (and
hence a different path) than the update path for the same record id. -/
theorem deletePath_uses_verbatim_class_name (cls idStr : String) :
    deleteRecordPath cls idStr = "/custom_objects/" ++ cls ++ "/records/" ++ idStr ∧
    saveUpdatePath cls idStr = "/custom_objects/" ++ pyLower cls ++ "/records/" ++ idStr ∧
    saveCreatePath cls = "/custom_objects/" ++ pyLower cls ++ "/records" ∧
    (hasUpperChar cls = true →
      pyLower cls ≠ cls ∧
      deleteRecordPath cls idStr ≠ saveUpdatePath cls idStr) := by
  refine ⟨rfl, rfl, rfl, fun hup => ⟨pyLower_ne_of_hasUpper cls hup, ?_⟩⟩
  intro heq
  apply pyLower_ne_of_hasUpper cls hup
  have hd := congrArg String.data heq
  simp only [deleteRecordPath, saveUpdatePath, String.data_append, List.append_assoc] at hd
  have h1 := List.append_cancel_left hd
  have h2 := List.append_cancel_right h1
  exact String.ext h2.symm

theorem deletePath_uses_verbatim_class_name_witness :
    hasUpperChar "MockCustomObject" = true ∧
    pyLower "MockCustomObject" ≠ "MockCustomObject" ∧
    deleteRecordPath "MockCustomObject" "1" ≠ saveUpdatePath "MockCustomObject" "1" := by
  have h := (deletePath_uses_verbatim_class_name "MockCustomObject" "1").2.2.2 (by decide)
  exact ⟨by decide, h.1, h.2⟩

theorem findDecl_id_none (cls : ClassDef) (hwf : WF cls) :
    findDecl cls "id" = Option.none := by
  unfold findDecl
  rw [List.find?_eq_none.mpr]
  · rfl
  · intro p hp
    simp only [decide_eq_true_eq]
    exact hwf.2.2.1 p hp

theorem setattrE_id (cls : ClassDef) (e : Entity) (v : Value) (hwf : WF cls) :
    setattrE cls e "id" v = .ok ⟨dictSet e.attrs "id" v⟩ := by
  unfold setattrE
  rw [findDecl_id_none cls hwf]

theorem getattrE_id_plain (cls : ClassDef) (e : Entity) (hwf : WF cls) :
    getattrE cls e "id" .none = dictGetD e.attrs "id" .none := by
  unfold getattrE
  rw [findDecl_id_none cls hwf]

theorem setattrE_name_shape (cls : ClassDef) (e e2 : Entity) (v : Value) (hwf : WF cls)
    (h : setattrE cls e "name" v = .ok e2) :
    e2.attrs = dictSet e.attrs "name" v := by
  unfold setattrE at h
  cases hfd : findDecl cls "name" with
  | none =>
      rw [hfd] at h
      injection h with h'
      rw [← h']
  | some fd =>
      rw [hfd] at h
      have hst : fd.storageName = "name" := by
        unfold findDecl at hfd
        cases hf : cls.decls.find? (fun p => p.1 = "name") with
        | none => rw [hf] at hfd; simp at hfd
        | some p =>
            rw [hf] at hfd
            simp only [Option.map_some'] at hfd
            injection hfd with hfd2
            have hmem := List.mem_of_find?_eq_some hf
            have hkey := List.find?_some hf
            simp only [decide_eq_true_eq] at hkey
            rw [← hfd2, hwf.2.1 p hmem, hkey]
      have hnd := hwf.2.2.2
      unfold nameDeclSimple at hnd
      rw [hfd] at hnd
      cases fd with
      | nameF cfg =>
          cases v with
          | none =>
              simp only [fieldSet, fieldValidate, exceptOk_bind, Bool.not_true,
                Bool.false_eq_true, if_false] at h
              injection h with h'
              rw [← h']
              simp [FieldDef.storageName]
          | str s =>
              simp only [fieldSet, fieldValidate, isinstStr, exceptOk_bind, Bool.not_true,
                Bool.false_eq_true, if_false] at h
              injection h with h'
              rw [← h']
              simp [FieldDef.storageName]
          | bool b => simp [fieldSet, fieldValidate, isinstStr] at h
          | int n => simp [fieldSet, fieldValidate, isinstStr] at h
          | float n => simp [fieldSet, fieldValidate, isinstStr] at h
          | bytes bs => simp [fieldSet, fieldValidate, isinstStr] at h
          | list xs => simp [fieldSet, fieldValidate, isinstStr] at h
          | dict kvs => simp [fieldSet, fieldValidate, isinstStr] at h
          | file a b c d e5 g t => simp [fieldSet, fieldValidate, isinstStr] at h
      | text n =>
          rw [FieldDef.storageName] at hst
          subst hst
          cases v with
          | none =>
              simp only [fieldSet, fieldValidate, exceptOk_bind, Bool.not_true,
                Bool.false_eq_true, if_false] at h
              injection h with h'
              rw [← h']
              simp [FieldDef.storageName]
          | str s =>
              simp only [fieldSet, fieldValidate, isinstStr, exceptOk_bind, Bool.not_true,
                Bool.false_eq_true, if_false] at h
              injection h with h'
              rw [← h']
              simp [FieldDef.storageName]
          | bool b => simp [fieldSet, fieldValidate, isinstStr] at h
          | int n2 => simp [fieldSet, fieldValidate, isinstStr] at h
          | float n2 => simp [fieldSet, fieldValidate, isinstStr] at h
          | bytes bs => simp [fieldSet, fieldValidate, isinstStr] at h
          | list xs => simp [fieldSet, fieldValidate, isinstStr] at h
          | dict kvs => simp [fieldSet, fieldValidate, isinstStr] at h
          | file a b c d e5 g t => simp [fieldSet, fieldValidate, isinstStr] at h
      | textarea n =>
          rw [FieldDef.storageName] at hst
          subst hst
          cases v with
          | none =>
              simp only [fieldSet, fieldValidate, exceptOk_bind, Bool.not_true,
                Bool.false_eq_true, if_false] at h
              injection h with h'
              rw [← h']
              simp [FieldDef.storageName]
          | str s =>
              simp only [fieldSet, fieldValidate, isinstStr, exceptOk_bind, Bool.not_true,
                Bool.false_eq_true, if_false] at h
              injection h with h'
              rw [← h']
              simp [FieldDef.storageName]
          | bool b => simp [fieldSet, fieldValidate, isinstStr] at h
          | int n2 => simp [fieldSet, fieldValidate, isinstStr] at h
          | float n2 => simp [fieldSet, fieldValidate, isinstStr] at h
          | bytes bs => simp [fieldSet, fieldValidate, isinstStr] at h
          | list xs => simp [fieldSet, fieldValidate, isinstStr] at h
          | dict kvs => simp [fieldSet, fieldValidate, isinstStr] at h
          | file a b c d e5 g t => simp [fieldSet, fieldValidate, isinstStr] at h
      | checkbox n => simp at hnd
      | date n => simp at hnd
      | integer n => simp at hnd
      | decimal n => simp at hnd
      | regexp n p => simp at hnd
      | dropdown f => simp at hnd
      | multiselect f => simp at hnd
      | lookup n rel => simp at hnd
      | attachment a b c => simp at hnd

theorem saveUpdate_ok (cls : ClassDef) (e : Entity) (resp data idV : Value)
    (req : Request) (e' : Entity) (r : Value)
    (h : saveUpdate cls e resp data idV = .ok (req, e', r)) :
    req = .patch (saveUpdatePath cls.className idV.pyStr) data ∧ e' = e ∧ r = resp := by
  unfold saveUpdate at h
  split at h
  · exact absurd h (by simp)
  · injection h with h'
    have := Prod.mk.injEq .. |>.mp h'
    have h2 := Prod.mk.injEq .. |>.mp this.2
    exact ⟨this.1.symm, h2.1.symm, h2.2.symm⟩

theorem saveCreate_ok (cls : ClassDef) (e : Entity) (resp data : Value)
    (req : Request) (e' : Entity) (r : Value) (hwf : WF cls)
    (h : saveCreate cls e resp data = .ok (req, e', r)) :
    req = .post (saveCreatePath cls.className) data ∧ r = resp ∧
    ∃ recV rid rname,
      vIndex resp "custom_object_record" = .ok recV ∧
      vIndex recV "id" = .ok rid ∧
      vIndex recV "name" = .ok rname ∧
      e'.attrs = dictSet (dictSet e.attrs "id" rid) "name" rname := by
  unfold saveCreate at h
  cases hd : uniqueViolationDescription resp with
  | error err => rw [hd] at h; simp at h
  | ok desc =>
      rw [hd] at h
      simp only [exceptOk_bind] at h
      split at h
      · cases hn : getattrStrict cls e "name" with
        | error err => rw [hn] at h; simp at h
        | ok n => rw [hn] at h; simp at h
      · split at h
        · simp at h
        · cases hrec : vIndex resp "custom_object_record" with
          | error err => rw [hrec] at h; simp at h
          | ok recV =>
              rw [hrec] at h
              simp only [exceptOk_bind] at h
              cases hrid : vIndex recV "id" with
              | error err => rw [hrid] at h; simp at h
              | ok rid =>
                  rw [hrid] at h
                  simp only [exceptOk_bind] at h
                  cases hrname : vIndex recV "name" with
                  | error err => rw [hrname] at h; simp at h
                  | ok rname =>
                      rw [hrname] at h
                      simp only [exceptOk_bind] at h
                      rw [setattrE_id cls e rid hwf] at h
                      simp only [exceptOk_bind] at h
                      cases hsn : setattrE cls ⟨dictSet e.attrs "id" rid⟩ "name" rname with
                      | error err => rw [hsn] at h; simp at h
                      | ok e2 =>
                          rw [hsn] at h
                          simp only [exceptOk_bind] at h
                          injection h with h'
                          have h1 := Prod.mk.injEq .. |>.mp h'
                          have h2 := Prod.mk.injEq .. |>.mp h1.2
                          have hreq := h1.1
                          have he2 := h2.1
                          have hresp := h2.2
                          subst hreq
                          subst he2
                          subst hresp
                          refine ⟨rfl, rfl, recV, rid, rname, rfl, hrid, hrname, ?_⟩
                          exact setattrE_name_shape cls ⟨dictSet e.attrs "id" rid⟩ e2 rname hwf hsn

theorem getattrE_of_not_hasattr (cls : ClassDef) (e : Entity) (k : String)
    (h : hasattrE cls e k = false) : getattrE cls e k .none = .none := by
  unfold hasattrE at h
  unfold getattrE
  cases hfd : findDecl cls k with
  | none =>
      rw [hfd] at h
      cases hget : dictGet? e.attrs k with
      | none => simp [dictGetD, hget]
      | some w => rw [hget] at h; simp at h
  | some fd => rw [hfd] at h; simp at h

/-- The branch condition of `save` reduces to the truthiness of the
`id` attribute read with a `None` default. -/
theorem save_branch_condition (cls : ClassDef) (e : Entity) :
    (!hasattrE cls e "id" ||
      !(if hasattrE cls e "id" then getattrE cls e "id" .none else Value.none).truthy) =
    !(getattrE cls e "id" .none).truthy := by
  by_cases hp : hasattrE cls e "id"
  · simp [hp]
  · simp only [Bool.not_eq_true] at hp
    rw [hp, getattrE_of_not_hasattr cls e "id" hp]
    simp [Value.truthy]

/-- Any successful `save` went through exactly one of the two
branches, selected by the truthiness of `id`. -/
theorem save_ok_cases (cls : ClassDef) (e : Entity) (resp : Value)
    (out : Request × Entity × Value) (h : save cls e resp = .ok out) :
    ∃ data,
      ((getattrE cls e "id" .none).truthy = false ∧
        saveCreate cls e resp data = .ok out) ∨
      ((getattrE cls e "id" .none).truthy = true ∧
        saveUpdate cls e resp data (getattrE cls e "id" .none) = .ok out) := by
  unfold save at h
  cases hts : to_save cls e with
  | error err => rw [hts] at h; simp at h
  | ok fp =>
      rw [hts] at h
      simp only [exceptOk_bind] at h
      have hfinish : ∀ data : Value,
          ((if (!hasattrE cls e "id" ||
              !(if hasattrE cls e "id" then getattrE cls e "id" .none else Value.none).truthy) = true
            then saveCreate cls e resp data
            else saveUpdate cls e resp data
              (if hasattrE cls e "id" then getattrE cls e "id" .none else Value.none)) = .ok out) →
          ((getattrE cls e "id" .none).truthy = false ∧
            saveCreate cls e resp data = .ok out) ∨
          ((getattrE cls e "id" .none).truthy = true ∧
            saveUpdate cls e resp data (getattrE cls e "id" .none) = .ok out) := by
        intro data hbr
        rw [save_branch_condition cls e] at hbr
        by_cases htr : (getattrE cls e "id" .none).truthy
        · right
          refine ⟨htr, ?_⟩
          rw [htr] at hbr
          simp only [Bool.not_true, Bool.false_eq_true, if_false] at hbr
          have hp : hasattrE cls e "id" = true := by
            by_contra hc
            simp only [Bool.not_eq_true] at hc
            rw [getattrE_of_not_hasattr cls e "id" hc] at htr
            simp [Value.truthy] at htr
          rwa [hp, if_pos rfl] at hbr
        · left
          simp only [Bool.not_eq_true] at htr
          refine ⟨htr, ?_⟩
          rw [htr] at hbr
          simpa using hbr
      by_cases haut : is_namefield_autoincrement cls
      · rw [if_pos haut] at h
        exact ⟨_, hfinish _ h⟩
      · rw [if_neg haut] at h
        cases hn : getattrStrict cls e "name" with
        | error err => rw [hn] at h; simp at h
        | ok n =>
            rw [hn] at h
            exact ⟨_, hfinish _ h⟩

/-- C1 (amended): `save()` branches on the truthiness of `id`
(`if not hasattr(self, "id") or not self.id`), not on `id is None`:
when `id` is `None` — or any other falsy value such as the empty
string — it issues one create request and stores the response's id on
the entity; when `id` is truthy it issues one update request addressed
to that same id and no create. -/
theorem save_create_vs_update
    (cls : ClassDef) (e : Entity) (resp : Value) (req : Request) (e' : Entity) (r : Value)
    (hwf : WF cls) (h : save cls e resp = .ok (req, e', r)) :
    ((getattrE cls e "id" .none).truthy = false →
      req.isPost = true ∧ req.path = saveCreatePath cls.className ∧
      ∀ recV rid, vIndex resp "custom_object_record" = .ok recV →
        vIndex recV "id" = .ok rid →
        getattrE cls e' "id" .none = rid) ∧
    ((getattrE cls e "id" .none).truthy = true →
      req.isPost = false ∧
      req.path = saveUpdatePath cls.className (getattrE cls e "id" .none).pyStr) := by
  obtain ⟨data, hcase⟩ := save_ok_cases cls e resp (req, e', r) h
  constructor
  · intro htr
    cases hcase with
    | inr hc => rw [htr] at hc; exact absurd hc.1 (by simp)
    | inl hc =>
        obtain ⟨-, hcreate⟩ := hc
        obtain ⟨hreq, hresp, recV', rid', rname', hrec', hrid', hrname', hshape⟩ :=
          saveCreate_ok cls e resp data req e' r hwf hcreate
        subst hreq
        refine ⟨rfl, rfl, ?_⟩
        intro recV rid hrec hrid
        rw [hrec'] at hrec
        injection hrec with hr1
        subst hr1
        rw [hrid'] at hrid
        injection hrid with hr2
        subst hr2
        rw [getattrE_id_plain cls e' hwf, hshape]
        unfold dictGetD
        rw [dictGet?_dictSet_ne _ "name" "id" _ (by decide), dictGet?_dictSet_self]
        rfl
  · intro htr
    cases hcase with
    | inl hc => rw [htr] at hc; exact absurd hc.1 (by simp)
    | inr hc =>
        obtain ⟨-, hupd⟩ := hc
        obtain ⟨hreq, he, hr⟩ :=
          saveUpdate_ok cls e resp data (getattrE cls e "id" .none) req e' r hupd
        subst hreq
        exact ⟨rfl, rfl⟩

theorem save_create_vs_update_witness :
    WF clsW ∧
    (getattrE clsW eCreateW "id" .none).truthy = false ∧
    (∃ req e' r, save clsW eCreateW respCreateW = .ok (req, e', r) ∧
      req.isPost = true ∧ req.path = saveCreatePath "Ticket" ∧
      getattrE clsW e' "id" .none = .str "1") ∧
    (getattrE clsW eUpdateW "id" .none).truthy = true ∧
    (∃ req e' r, save clsW eUpdateW respEmpty = .ok (req, e', r) ∧
      req.isPost = false ∧ req.path = saveUpdatePath "Ticket" "5") := by
  have hwf : WF clsW := by decide
  refine ⟨hwf, rfl, ?_, rfl, ?_⟩
  · cases hs : save clsW eCreateW respCreateW with
    | error err => exact absurd hs (by rw [show save clsW eCreateW respCreateW =
        .ok (.post "/custom_objects/ticket/records"
          (.dict [("custom_object_record", .dict
            [("custom_object_fields", .dict [("codigo", .str "x")]),
             ("name", .str "Unnamed Object"), ("external_id", .none)])]),
         ⟨[("id", .str "1"), ("name", .str "T"), ("codigo", .str "x")]⟩, respCreateW) from rfl]; simp)
    | ok out =>
        obtain ⟨req, e', r⟩ := out
        have hc := (save_create_vs_update clsW eCreateW respCreateW req e' r hwf hs).1 rfl
        exact ⟨req, e', r, rfl, hc.1, hc.2.1, hc.2.2 _ (.str "1") rfl rfl⟩
  · cases hs : save clsW eUpdateW respEmpty with
    | error err => exact absurd hs (by rw [show save clsW eUpdateW respEmpty =
        .ok (.patch "/custom_objects/ticket/records/5"
          (.dict [("custom_object_record", .dict
            [("custom_object_fields", .dict [("codigo", .str "x"), ("id", .str "5")]),
             ("name", .str "Unnamed Object"), ("external_id", .none)])]),
         eUpdateW, respEmpty) from rfl]; simp)
    | ok out =>
        obtain ⟨req, e', r⟩ := out
        have hc := (save_create_vs_update clsW eUpdateW respEmpty req e' r hwf hs).2 rfl
        exact ⟨req, e', r, rfl, hc.1, hc.2⟩

/-- C1 counterexample: an entity whose `id` is the empty string — a
non-null value — still takes the create path (`not self.id` is true for
`""`), issuing a POST rather than the update the claim promises. -/
theorem save_counterexample_empty_string_id :
    getattrE clsNoFields eEmptyIdC "id" .none = .str "" ∧
    ¬ (Value.str "" = Value.none) ∧
    (save clsNoFields eEmptyIdC respCreateW).toOption.map (fun out => out.1.isPost) =
      some true := by
  refine ⟨rfl, by simp, rfl⟩

/-- C10 (amended): when `id` is truthy, a successful `save()` leaves
the entity — id, name and every declared field slot — exactly as it
was; the create path (taken whenever `id` is `None` or otherwise
falsy, e.g. `0` or `""`) is the only one that mutates the entity, and
it touches only the `id` and `name` attributes, storing the values
returned by the server. -/
theorem save_update_frame
    (cls : ClassDef) (e : Entity) (resp : Value) (req : Request) (e' : Entity) (r : Value)
    (hwf : WF cls) (h : save cls e resp = .ok (req, e', r)) :
    ((getattrE cls e "id" .none).truthy = true → e' = e) ∧
    ((getattrE cls e "id" .none).truthy = false →
      ∃ rid rname, e'.attrs = dictSet (dictSet e.attrs "id" rid) "name" rname ∧
        ∀ k, k ≠ "id" → k ≠ "name" → dictGet? e'.attrs k = dictGet? e.attrs k) := by
  obtain ⟨data, hcase⟩ := save_ok_cases cls e resp (req, e', r) h
  constructor
  · intro htr
    cases hcase with
    | inl hc => rw [htr] at hc; exact absurd hc.1 (by simp)
    | inr hc =>
        obtain ⟨-, hupd⟩ := hc
        exact (saveUpdate_ok cls e resp data (getattrE cls e "id" .none) req e' r hupd).2.1
  · intro htr
    cases hcase with
    | inr hc => rw [htr] at hc; exact absurd hc.1 (by simp)
    | inl hc =>
        obtain ⟨-, hcreate⟩ := hc
        obtain ⟨hreq, hresp, recV', rid', rname', hrec', hrid', hrname', hshape⟩ :=
          saveCreate_ok cls e resp data req e' r hwf hcreate
        refine ⟨rid', rname', hshape, ?_⟩
        intro k hk1 hk2
        rw [hshape]
        rw [dictGet?_dictSet_ne _ "name" k _ (fun hh => hk2 hh.symm)]
        rw [dictGet?_dictSet_ne _ "id" k _ (fun hh => hk1 hh.symm)]

theorem save_update_frame_witness :
    WF clsW ∧
    (getattrE clsW eUpdateW "id" .none).truthy = true ∧
    (∃ req e' r, save clsW eUpdateW respEmpty = .ok (req, e', r) ∧ e' = eUpdateW) := by
  have hwf : WF clsW := by decide
  refine ⟨hwf, rfl, ?_⟩
  cases hs : save clsW eUpdateW respEmpty with
  | error err => exact absurd hs (by rw [show save clsW eUpdateW respEmpty =
      .ok (.patch "/custom_objects/ticket/records/5"
        (.dict [("custom_object_record", .dict
          [("custom_object_fields", .dict [("codigo", .str "x"), ("id", .str "5")]),
           ("name", .str "Unnamed Object"), ("external_id", .none)])]),
       eUpdateW, respEmpty) from rfl]; simp)
  | ok out =>
      obtain ⟨req, e', r⟩ := out
      exact ⟨req, e', r, rfl,
        (save_update_frame clsW eUpdateW respEmpty req e' r hwf hs).1 rfl⟩

/-- C10 counterexample: an entity whose `id` is `0` — non-null, so
"already persisted" in the claim's sense — is mutated by a successful
`save()`: the call takes the create path and overwrites `id` (and
`name`) from the response. -/
theorem save_mutates_nonnull_falsy_id_counterexample :
    getattrE clsNoFields eZeroIdC "id" .none = .int 0 ∧
    ¬ (Value.int 0 = Value.none) ∧
    (save clsNoFields eZeroIdC respIdC).toOption.map
        (fun out => getattrE clsNoFields out.2.1 "id" .none) = some (.int 77) ∧
    ¬ (Value.int 77 = Value.int 0) := by
  refine ⟨rfl, by simp, rfl, by simp⟩

theorem dictGet?_eq_none_of_no_key (d : List (String × Value)) (k : String)
    (h : ∀ p ∈ d, p.1 ≠ k) : dictGet? d k = Option.none := by
  induction d with
  | nil => rfl
  | cons q tl ih =>
      have hq := h q (List.mem_cons_self q tl)
      simp only [dictGet?, hq, if_false]
      exact ih (fun p hp => h p (List.mem_cons_of_mem q hp))

theorem toSaveStep_eq (inst acc : List (String × Value)) (p : String × FieldDef) :
    toSaveStep inst acc p =
      match customFieldEntry p.2 inst with
      | .ok v => .ok (dictSet acc p.1 v)
      | .error err => .error err := by
  obtain ⟨attr, fd⟩ := p
  cases fd with
  | dropdown f =>
      simp only [toSaveStep, customFieldEntry]
      cases hfg : fieldGet (.dropdown f) inst with
      | none => rfl
      | str s =>
          cases hce : choiceGetToSave (.dropdown f) inst with
          | error err => simp [hce]
          | ok v => simp [hce, dictSet_dictSet_self]
      | bool b =>
          cases hce : choiceGetToSave (.dropdown f) inst with
          | error err => simp [hce]
          | ok v => simp [hce, dictSet_dictSet_self]
      | int n =>
          cases hce : choiceGetToSave (.dropdown f) inst with
          | error err => simp [hce]
          | ok v => simp [hce, dictSet_dictSet_self]
      | float n =>
          cases hce : choiceGetToSave (.dropdown f) inst with
          | error err => simp [hce]
          | ok v => simp [hce, dictSet_dictSet_self]
      | bytes bs =>
          cases hce : choiceGetToSave (.dropdown f) inst with
          | error err => simp [hce]
          | ok v => simp [hce, dictSet_dictSet_self]
      | list xs =>
          cases hce : choiceGetToSave (.dropdown f) inst with
          | error err => simp [hce]
          | ok v => simp [hce, dictSet_dictSet_self]
      | dict kvs =>
          cases hce : choiceGetToSave (.dropdown f) inst with
          | error err => simp [hce]
          | ok v => simp [hce, dictSet_dictSet_self]
      | file a b c d e5 g t =>
          cases hce : choiceGetToSave (.dropdown f) inst with
          | error err => simp [hce]
          | ok v => simp [hce, dictSet_dictSet_self]
  | multiselect f =>
      simp only [toSaveStep, customFieldEntry]
      cases hfg : fieldGet (.multiselect f) inst with
      | none => rfl
      | str s =>
          cases hce : choiceGetToSave (.multiselect f) inst with
          | error err => simp [hce]
          | ok v => simp [hce, dictSet_dictSet_self]
      | bool b =>
          cases hce : choiceGetToSave (.multiselect f) inst with
          | error err => simp [hce]
          | ok v => simp [hce, dictSet_dictSet_self]
      | int n =>
          cases hce : choiceGetToSave (.multiselect f) inst with
          | error err => simp [hce]
          | ok v => simp [hce, dictSet_dictSet_self]
      | float n =>
          cases hce : choiceGetToSave (.multiselect f) inst with
          | error err => simp [hce]
          | ok v => simp [hce, dictSet_dictSet_self]
      | bytes bs =>
          cases hce : choiceGetToSave (.multiselect f) inst with
          | error err => simp [hce]
          | ok v => simp [hce, dictSet_dictSet_self]
      | list xs =>
          cases hce : choiceGetToSave (.multiselect f) inst with
          | error err => simp [hce]
          | ok v => simp [hce, dictSet_dictSet_self]
      | dict kvs =>
          cases hce : choiceGetToSave (.multiselect f) inst with
          | error err => simp [hce]
          | ok v => simp [hce, dictSet_dictSet_self]
      | file a b c d e5 g t =>
          cases hce : choiceGetToSave (.multiselect f) inst with
          | error err => simp [hce]
          | ok v => simp [hce, dictSet_dictSet_self]
  | nameF cfg => rfl
  | text n => rfl
  | textarea n => rfl
  | checkbox n => rfl
  | date n => rfl
  | integer n => rfl
  | decimal n => rfl
  | regexp n pat => rfl
  | lookup n rel => rfl
  | attachment a b c => rfl

theorem customFold_char (inst : List (String × Value)) :
    ∀ (ds : List (String × FieldDef)) (acc res : List (String × Value)),
      ds.foldlM (toSaveStep inst) acc = .ok res →
      ((∀ k, (∀ p ∈ ds, p.1 ≠ k) → dictGet? res k = dictGet? acc k) ∧
       ((ds.map Prod.fst).Nodup →
         ∀ p ∈ ds, ∃ entry, customFieldEntry p.2 inst = .ok entry ∧
           dictGet? res p.1 = some entry)) := by
  intro ds
  induction ds with
  | nil =>
      intro acc res h
      simp only [List.foldlM_nil] at h
      injection h with h'
      subst h'
      exact ⟨fun k _ => rfl, fun _ p hp => absurd hp (List.not_mem_nil p)⟩
  | cons q tl ih =>
      intro acc res h
      rw [List.foldlM_cons] at h
      cases hstep : toSaveStep inst acc q with
      | error err => rw [hstep] at h; simp at h
      | ok acc1 =>
          rw [hstep] at h
          simp only [exceptOk_bind] at h
          obtain ⟨ih1, ih2⟩ := ih acc1 res h
          have hq : ∃ entry, customFieldEntry q.2 inst = .ok entry ∧
              acc1 = dictSet acc q.1 entry := by
            rw [toSaveStep_eq] at hstep
            cases hce : customFieldEntry q.2 inst with
            | error err => rw [hce] at hstep; simp at hstep
            | ok v =>
                rw [hce] at hstep
                injection hstep with h'
                exact ⟨v, rfl, h'.symm⟩
          obtain ⟨entry, hce, hacc1⟩ := hq
          constructor
          · intro k hk
            have htl : ∀ p ∈ tl, p.1 ≠ k := fun p hp => hk p (List.mem_cons_of_mem q hp)
            rw [ih1 k htl, hacc1,
              dictGet?_dictSet_ne _ _ _ _ (hk q (List.mem_cons_self q tl))]
          · intro hnd p hp
            have hnd2 : ¬ q.1 ∈ tl.map Prod.fst ∧ (tl.map Prod.fst).Nodup := by
              rw [List.map_cons, List.nodup_cons] at hnd
              exact hnd
            cases hp with
            | head =>
                have hknot : ∀ p2 ∈ tl, p2.1 ≠ q.1 := by
                  intro p2 hp2 heq2
                  exact hnd2.1 (heq2 ▸ List.mem_map_of_mem Prod.fst hp2)
                refine ⟨entry, hce, ?_⟩
                rw [ih1 q.1 hknot, hacc1, dictGet?_dictSet_self]
            | tail _ hptl => exact ih2 hnd2.2 p hptl

theorem dictMerge_get :
    ∀ (b a : List (String × Value)) (k : String), (b.map Prod.fst).Nodup →
      dictGet? (dictMerge a b) k =
        (match dictGet? b k with
         | some v => some v
         | Option.none => dictGet? a k) := by
  intro b
  induction b with
  | nil => intro a k _; rfl
  | cons q tl ih =>
      intro a k hnd
      have hnd2 : ¬ q.1 ∈ tl.map Prod.fst ∧ (tl.map Prod.fst).Nodup := by
        rw [List.map_cons, List.nodup_cons] at hnd
        exact hnd
      have hmer : dictMerge a (q :: tl) = dictMerge (dictSet a q.1 q.2) tl := by
        simp [dictMerge]
      rw [hmer, ih (dictSet a q.1 q.2) k hnd2.2]
      by_cases hk : q.1 = k
      · subst hk
        have htl : dictGet? tl q.1 = Option.none := by
          apply dictGet?_eq_none_of_no_key
          intro p hp heq2
          exact hnd2.1 (heq2 ▸ List.mem_map_of_mem Prod.fst hp)
        rw [htl]
        simp [dictGet?, dictGet?_dictSet_self]
      · cases htl : dictGet? tl k with
        | some v => simp [dictGet?, hk, htl]
        | none => simp [dictGet?, hk, htl, dictGet?_dictSet_ne a q.1 k q.2 hk]

theorem filtered_map_get (f : String → Value) :
    ∀ (ks : List String) (k : String), ks.Nodup →
      dictGet? ((ks.map (fun k0 => (k0, f k0))).filter (fun kv => !kv.2.isNone)) k =
        if k ∈ ks ∧ (f k).isNone = false then some (f k) else Option.none := by
  intro ks
  induction ks with
  | nil => intro k _; simp [dictGet?]
  | cons k0 tl ih =>
      intro k hnd
      obtain ⟨hk0, hnd'⟩ := List.nodup_cons.mp hnd
      simp only [List.map_cons, List.filter_cons]
      by_cases hn : (f k0).isNone
      · rw [if_neg (by simp [hn])]
        rw [ih k hnd']
        by_cases hk : k = k0
        · subst hk
          rw [if_neg (fun hc => hk0 hc.1),
            if_neg (fun hc => absurd hc.2 (by simp [hn]))]
        · by_cases hmt : k ∈ tl
          · by_cases hv : (f k).isNone = false
            · rw [if_pos ⟨hmt, hv⟩, if_pos ⟨List.mem_cons_of_mem _ hmt, hv⟩]
            · rw [if_neg (fun hc => hv hc.2), if_neg (fun hc => hv hc.2)]
          · rw [if_neg (fun hc => hmt hc.1), if_neg]
            intro hc
            cases List.mem_cons.mp hc.1 with
            | inl h1 => exact hk h1
            | inr h2 => exact hmt h2
      · rw [if_pos (by simp [hn])]
        by_cases hk : k0 = k
        · subst hk
          have h1 : dictGet? ((k0, f k0) ::
              (tl.map (fun k1 => (k1, f k1))).filter (fun kv => !kv.2.isNone)) k0 =
              some (f k0) := by
            simp [dictGet?]
          rw [h1, if_pos ⟨List.mem_cons_self k0 tl, by simpa using hn⟩]
        · have h1 : dictGet? ((k0, f k0) ::
              (tl.map (fun k1 => (k1, f k1))).filter (fun kv => !kv.2.isNone)) k =
              dictGet? ((tl.map (fun k1 => (k1, f k1))).filter (fun kv => !kv.2.isNone)) k := by
            simp [dictGet?, hk]
          rw [h1, ih k hnd']
          by_cases hmt : k ∈ tl
          · by_cases hv : (f k).isNone = false
            · rw [if_pos ⟨hmt, hv⟩, if_pos ⟨List.mem_cons_of_mem _ hmt, hv⟩]
            · rw [if_neg (fun hc => hv hc.2), if_neg (fun hc => hv hc.2)]
          · rw [if_neg (fun hc => hmt hc.1), if_neg]
            intro hc
            cases List.mem_cons.mp hc.1 with
            | inl h1 => exact hk (h1.symm : k0 = k)
            | inr h2 => exact hmt h2

theorem find?_assoc_of_mem_nodup {β : Type} :
    ∀ (l : List (String × β)) (p : String × β), p ∈ l → (l.map Prod.fst).Nodup →
      l.find? (fun q => q.1 = p.1) = some p := by
  intro l
  induction l with
  | nil => intro p hp; cases hp
  | cons q tl ih =>
      intro p hp hnd
      have hnd2 : ¬ q.1 ∈ tl.map Prod.fst ∧ (tl.map Prod.fst).Nodup := by
        rw [List.map_cons, List.nodup_cons] at hnd
        exact hnd
      cases hp with
      | head => exact List.find?_cons_of_pos _ (by simp)
      | tail _ hptl =>
          have hne : ¬ (q.1 = p.1) := by
            intro he
            exact hnd2.1 (he ▸ List.mem_map_of_mem Prod.fst hptl)
          rw [List.find?_cons_of_neg _ (by simpa using hne)]
          exact ih p hptl hnd2.2

theorem getattrE_decl (cls : ClassDef) (e : Entity) (p : String × FieldDef) (dflt : Value)
    (hp : p ∈ cls.decls) (hnd : (cls.decls.map Prod.fst).Nodup) :
    getattrE cls e p.1 dflt = fieldGet p.2 e.attrs := by
  unfold getattrE findDecl
  rw [find?_assoc_of_mem_nodup cls.decls p hp hnd]
  rfl

theorem customFieldEntry_nonchoice (fd : FieldDef) (inst : List (String × Value))
    (h : fd.isChoice = false) : customFieldEntry fd inst = .ok (fieldGet fd inst) := by
  cases fd with
  | dropdown f => simp [FieldDef.isChoice] at h
  | multiselect f => simp [FieldDef.isChoice] at h
  | nameF cfg => rfl
  | text n => rfl
  | textarea n => rfl
  | checkbox n => rfl
  | date n => rfl
  | integer n => rfl
  | decimal n => rfl
  | regexp n pat => rfl
  | lookup n rel => rfl
  | attachment a b c => rfl

/-- C2 (amended): the `to_save` wire payload maps every declared
Dropdown/Multiselect field not named as one of the seven system
metadata keys to its representation when non-null and to null when
null, maps every other declared field to its raw descriptor value, and
merges in exactly the non-null system metadata entries — which, being
merged last (`{**custom_fields, **default_fields}`), override a
same-named declared field's entry. -/
theorem to_save_payload
    (cls : ClassDef) (e : Entity) (payload : List (String × Value))
    (hnd : (cls.decls.map Prod.fst).Nodup)
    (h : to_save cls e = .ok payload) :
    (∀ p ∈ cls.decls, p.2.isChoice = false →
        dictGet? payload p.1 = some (fieldGet p.2 e.attrs)) ∧
    (∀ p ∈ cls.decls, p.2.isChoice = true → ¬ p.1 ∈ DEFAULT_FIELDS →
        (fieldGet p.2 e.attrs = .none → dictGet? payload p.1 = some .none) ∧
        (∀ rep, choiceGetToSave p.2 e.attrs = .ok rep → ¬ fieldGet p.2 e.attrs = .none →
            dictGet? payload p.1 = some rep)) ∧
    (∀ k ∈ DEFAULT_FIELDS, (getattrE cls e k .none).isNone = false →
        dictGet? payload k = some (getattrE cls e k .none)) ∧
    (∀ k ∈ DEFAULT_FIELDS, (getattrE cls e k .none).isNone = true →
        (∀ p ∈ cls.decls, p.1 ≠ k) → dictGet? payload k = Option.none) ∧
    (∀ k, ¬ k ∈ DEFAULT_FIELDS → (∀ p ∈ cls.decls, p.1 ≠ k) →
        dictGet? payload k = Option.none) := by
  unfold to_save at h
  cases hfold : cls.decls.foldlM (toSaveStep e.attrs) ([] : List (String × Value)) with
  | error err => rw [hfold] at h; simp at h
  | ok custom =>
      rw [hfold] at h
      simp only [exceptOk_bind] at h
      injection h with h'
      have hDnd : DEFAULT_FIELDS.Nodup := by decide
      have hDnd2 : (((DEFAULT_FIELDS.map (fun k => (k, getattrE cls e k .none))).filter
          (fun kv => !kv.2.isNone)).map Prod.fst).Nodup := by
        have hsub : List.Sublist
            (((DEFAULT_FIELDS.map (fun k => (k, getattrE cls e k .none))).filter
              (fun kv => !kv.2.isNone)).map Prod.fst)
            ((DEFAULT_FIELDS.map (fun k => (k, getattrE cls e k .none))).map Prod.fst) :=
          (List.filter_sublist _).map Prod.fst
        have hbig : ((DEFAULT_FIELDS.map (fun k => (k, getattrE cls e k .none))).map
            Prod.fst).Nodup := by
          rw [List.map_map]
          exact hDnd
        exact List.Nodup.sublist hsub hbig
      have hmerge : ∀ k, dictGet? payload k =
          (match dictGet? ((DEFAULT_FIELDS.map (fun k => (k, getattrE cls e k .none))).filter
              (fun kv => !kv.2.isNone)) k with
           | some v => some v
           | Option.none => dictGet? custom k) := by
        intro k
        rw [← h']
        exact dictMerge_get _ custom k hDnd2
      have hdef : ∀ k, dictGet? ((DEFAULT_FIELDS.map (fun k => (k, getattrE cls e k .none))).filter
          (fun kv => !kv.2.isNone)) k =
          if k ∈ DEFAULT_FIELDS ∧ (getattrE cls e k .none).isNone = false
          then some (getattrE cls e k .none) else Option.none := by
        intro k
        exact filtered_map_get (fun k0 => getattrE cls e k0 .none) DEFAULT_FIELDS k hDnd
      obtain ⟨hfc1, hfc2⟩ := customFold_char e.attrs cls.decls [] custom hfold
      refine ⟨?_, ?_, ?_, ?_, ?_⟩
      · intro p hp hnc
        obtain ⟨entry, hce, hget⟩ := hfc2 hnd p hp
        rw [customFieldEntry_nonchoice p.2 e.attrs hnc] at hce
        injection hce with hce'
        rw [hmerge p.1, hdef p.1]
        by_cases hcond : p.1 ∈ DEFAULT_FIELDS ∧ (getattrE cls e p.1 .none).isNone = false
        · rw [if_pos hcond]
          rw [getattrE_decl cls e p Value.none hp hnd]
        · rw [if_neg hcond]
          rw [hget, ← hce']
      · intro p hp hic hnm
        have hcond : ¬ (p.1 ∈ DEFAULT_FIELDS ∧ (getattrE cls e p.1 .none).isNone = false) :=
          fun hc => hnm hc.1
        obtain ⟨entry, hce, hget⟩ := hfc2 hnd p hp
        constructor
        · intro hfg
          rw [hmerge p.1, hdef p.1, if_neg hcond, hget]
          unfold customFieldEntry at hce
          cases hp2 : p.2 with
          | dropdown f =>
              rw [hp2] at hce hfg
              rw [hfg] at hce
              simp at hce
              rw [← hce]
          | multiselect f =>
              rw [hp2] at hce hfg
              rw [hfg] at hce
              simp at hce
              rw [← hce]
          | nameF cfg => rw [hp2] at hic; simp [FieldDef.isChoice] at hic
          | text n => rw [hp2] at hic; simp [FieldDef.isChoice] at hic
          | textarea n => rw [hp2] at hic; simp [FieldDef.isChoice] at hic
          | checkbox n => rw [hp2] at hic; simp [FieldDef.isChoice] at hic
          | date n => rw [hp2] at hic; simp [FieldDef.isChoice] at hic
          | integer n => rw [hp2] at hic; simp [FieldDef.isChoice] at hic
          | decimal n => rw [hp2] at hic; simp [FieldDef.isChoice] at hic
          | regexp n pat => rw [hp2] at hic; simp [FieldDef.isChoice] at hic
          | lookup n rel => rw [hp2] at hic; simp [FieldDef.isChoice] at hic
          | attachment a b c => rw [hp2] at hic; simp [FieldDef.isChoice] at hic
        · intro rep hrep hfg
          rw [hmerge p.1, hdef p.1, if_neg hcond, hget]
          unfold customFieldEntry at hce
          cases hp2 : p.2 with
          | dropdown f =>
              rw [hp2] at hce hrep hfg
              cases hv : fieldGet (.dropdown f) e.attrs with
              | none => exact absurd hv hfg
              | str s => rw [hv] at hce; rw [hrep] at hce; injection hce with hh; rw [← hh]
              | bool b => rw [hv] at hce; rw [hrep] at hce; injection hce with hh; rw [← hh]
              | int n => rw [hv] at hce; rw [hrep] at hce; injection hce with hh; rw [← hh]
              | float n => rw [hv] at hce; rw [hrep] at hce; injection hce with hh; rw [← hh]
              | bytes bs => rw [hv] at hce; rw [hrep] at hce; injection hce with hh; rw [← hh]
              | list xs => rw [hv] at hce; rw [hrep] at hce; injection hce with hh; rw [← hh]
              | dict kvs => rw [hv] at hce; rw [hrep] at hce; injection hce with hh; rw [← hh]
              | file a b c d e5 g t => rw [hv] at hce; rw [hrep] at hce; injection hce with hh; rw [← hh]
          | multiselect f =>
              rw [hp2] at hce hrep hfg
              cases hv : fieldGet (.multiselect f) e.attrs with
              | none => exact absurd hv hfg
              | str s => rw [hv] at hce; rw [hrep] at hce; injection hce with hh; rw [← hh]
              | bool b => rw [hv] at hce; rw [hrep] at hce; injection hce with hh; rw [← hh]
              | int n => rw [hv] at hce; rw [hrep] at hce; injection hce with hh; rw [← hh]
              | float n => rw [hv] at hce; rw [hrep] at hce; injection hce with hh; rw [← hh]
              | bytes bs => rw [hv] at hce; rw [hrep] at hce; injection hce with hh; rw [← hh]
              | list xs => rw [hv] at hce; rw [hrep] at hce; injection hce with hh; rw [← hh]
              | dict kvs => rw [hv] at hce; rw [hrep] at hce; injection hce with hh; rw [← hh]
              | file a b c d e5 g t => rw [hv] at hce; rw [hrep] at hce; injection hce with hh; rw [← hh]
          | nameF cfg => rw [hp2] at hic; simp [FieldDef.isChoice] at hic
          | text n => rw [hp2] at hic; simp [FieldDef.isChoice] at hic
          | textarea n => rw [hp2] at hic; simp [FieldDef.isChoice] at hic
          | checkbox n => rw [hp2] at hic; simp [FieldDef.isChoice] at hic
          | date n => rw [hp2] at hic; simp [FieldDef.isChoice] at hic
          | integer n => rw [hp2] at hic; simp [FieldDef.isChoice] at hic
          | decimal n => rw [hp2] at hic; simp [FieldDef.isChoice] at hic
          | regexp n pat => rw [hp2] at hic; simp [FieldDef.isChoice] at hic
          | lookup n rel => rw [hp2] at hic; simp [FieldDef.isChoice] at hic
          | attachment a b c => rw [hp2] at hic; simp [FieldDef.isChoice] at hic
      · intro k hk hv
        rw [hmerge k, hdef k, if_pos ⟨hk, hv⟩]
      · intro k hk hv hnok
        rw [hmerge k, hdef k, if_neg (fun hc => by rw [hv] at hc; exact absurd hc.2 (by simp)),
          hfc1 k hnok]
        rfl
      · intro k hk hnok
        rw [hmerge k, hdef k, if_neg (fun hc => hk hc.1), hfc1 k hnok]
        rfl

theorem to_save_payload_witness :
    (clsC2W.decls.map Prod.fst).Nodup ∧
    to_save clsC2W eC2W = .ok payloadC2W ∧
    dictGet? payloadC2W "codigo" = some (.str "x") ∧
    dictGet? payloadC2W "priority" =
      some (.dict [("value", .str "low"), ("label", .str "Low")]) ∧
    dictGet? payloadC2W "id" = some (.int 9) ∧
    dictGet? payloadC2W "name" = Option.none := by
  have hnd : (clsC2W.decls.map Prod.fst).Nodup := by decide
  have hts : to_save clsC2W eC2W = .ok payloadC2W := rfl
  have hthm := to_save_payload clsC2W eC2W payloadC2W hnd hts
  refine ⟨hnd, hts, ?_, ?_, ?_, ?_⟩
  · exact hthm.1 ("codigo", .text "codigo") (by decide) rfl
  · exact (hthm.2.1
      ("priority", .dropdown ⟨"priority", [.pair "low" "Low"], some [("low", "Low")], ["low"]⟩)
      (by decide) rfl (by decide)).2
      (.dict [("value", .str "low"), ("label", .str "Low")]) rfl
      (fun hc => Value.noConfusion hc)
  · exact hthm.2.2.1 "id" (by decide) rfl
  · exact hthm.2.2.2.1 "name" (by decide) rfl (by decide)

/-- C2 counterexample: a Dropdown declared under the metadata name
`external_id` is NOT mapped to its `{value, label}` representation in
the wire payload — the metadata merge (`{**custom_fields,
**default_fields}`) overwrites the representation with the raw
descriptor value. -/
theorem to_save_metadata_override_counterexample :
    to_save clsC2X eC2X = .ok [("external_id", .str "a")] ∧
    dictGet? [("external_id", Value.str "a")] "external_id" = some (.str "a") ∧
    choiceGetToSave
        (.dropdown ⟨"external_id", [.pair "a" "A"], some [("a", "A")], ["a"]⟩) eC2X.attrs =
      .ok (.dict [("value", .str "a"), ("label", .str "A")]) ∧
    ¬ (Value.str "a" = .dict [("value", .str "a"), ("label", .str "A")]) := by
  refine ⟨rfl, rfl, rfl, by simp⟩

end MercuryORM


